import Mathlib

/-!
# DaySpark astronomy core: shallow embedding and verification

This file embeds the computational core of the DaySpark repository
(`src/providers/MoonProvider.ts`, `SunProvider.ts`, `PlanetProvider.ts`,
`CelestialEventsProvider.ts`) in Lean 4 and proves/refutes the frozen claims
about it.

Conventions of the embedding:
* JavaScript `number` (IEEE double) is modelled by exact rationals `ℚ`.
  All explicit numeric literals of the source are exact decimal fractions, so
  they embed exactly.
* The transcendental routines of the JS `Math` object (`sin`, `cos`, …) and
  the double constant `Math.PI` are bundled into a parameter structure
  `RMath`: every embedded provider function takes the interpretation as an
  argument, and the theorems quantify over it.  Branch structure, event
  assembly, normalisation loops, formatting and table lookups — everything
  the claims are about — are embedded concretely.
* JS `Date` millisecond values are rationals; where the source truncates to a
  stored integer millisecond value (`new Date(ms)`) we take the floor
  (the dates involved are after the epoch, where JS truncation = floor).
* Rendered text is modelled as `List Char` (the exact character sequence of
  the template strings of the source).
* `a % b` of JS (remainder with the sign of the dividend) is `jsMod`,
  `Math.sign` is `signQ`, `Math.round` is `jsRound` (half toward +∞, as in
  JS), and the `while (x < -180) x += 360; while (x > 180) x -= 360;`
  loops of the source are the recursive `norm180`.
-/

namespace DaySpark

/-- Truncation toward zero, as JS number-to-integer conversion does. -/
def truncQ (q : ℚ) : ℤ := if 0 ≤ q then ⌊q⌋ else ⌈q⌉

/-- JS remainder `a % b` (sign of the dividend, truncated quotient). -/
def jsMod (a b : ℚ) : ℚ := a - b * (truncQ (a / b) : ℚ)

/-- JS `Math.sign` (on our exact rationals; `-0` does not arise). -/
def signQ (q : ℚ) : ℚ := if q < 0 then -1 else if 0 < q then 1 else 0

/-- JS `Math.round`: half-way cases toward +∞. -/
def jsRound (q : ℚ) : ℤ := ⌊q + 1 / 2⌋

/-- The normalisation loop pair
`while (x < -180) x += 360; while (x > 180) x -= 360;` of the source.
Each step moves `x` strictly closer to the interval `[-180, 180]`. -/
def norm180 (x : ℚ) : ℚ :=
  if x < -180 then norm180 (x + 360)
  else if 180 < x then norm180 (x - 360)
  else x
termination_by (⌈|x|⌉).toNat
decreasing_by
· have hx : (180 : ℚ) < |x| := by
    rw [abs_of_neg (by linarith)]
    linarith
  have h1 : (180 : ℤ) < ⌈|x|⌉ := Int.lt_ceil.mpr (by exact_mod_cast hx)
  rcases le_or_lt (-540 : ℚ) x with hc | hc
  · have hb : |x + 360| ≤ 180 := by
      rw [abs_le]; constructor <;> linarith
    have : ⌈|x + 360|⌉ ≤ 180 := Int.ceil_le.mpr (by exact_mod_cast hb)
    omega
  · have hb : |x + 360| = |x| - 360 := by
      rw [abs_of_neg (by linarith : x + 360 < 0), abs_of_neg (by linarith : x < 0)]
      ring
    have : ⌈|x + 360|⌉ = ⌈|x|⌉ - 360 := by
      rw [hb, show (360 : ℚ) = ((360 : ℤ) : ℚ) by norm_num, Int.ceil_sub_int]
    omega
· have hx : (180 : ℚ) < |x| := by
    rw [abs_of_pos (by linarith)]
    linarith
  have h1 : (180 : ℤ) < ⌈|x|⌉ := Int.lt_ceil.mpr (by exact_mod_cast hx)
  rcases le_or_lt x (540 : ℚ) with hc | hc
  · have hb : |x - 360| ≤ 180 := by
      rw [abs_le]; constructor <;> linarith
    have : ⌈|x - 360|⌉ ≤ 180 := Int.ceil_le.mpr (by exact_mod_cast hb)
    omega
  · have hb : |x - 360| = |x| - 360 := by
      rw [abs_of_pos (by linarith : (0:ℚ) < x - 360), abs_of_pos (by linarith : (0:ℚ) < x)]
    have : ⌈|x - 360|⌉ = ⌈|x|⌉ - 360 := by
      rw [hb, show (360 : ℚ) = ((360 : ℤ) : ℚ) by norm_num, Int.ceil_sub_int]
    omega

theorem norm180_mem (x : ℚ) : -180 ≤ norm180 x ∧ norm180 x ≤ 180 := by
  induction x using norm180.induct with
  | case1 x h ih => rw [norm180]; simp only [if_pos h]; exact ih
  | case2 x h1 h2 ih =>
      rw [norm180]; simp only [if_neg h1, if_pos h2]; exact ih
  | case3 x h1 h2 =>
      rw [norm180]; simp only [if_neg h1, if_neg h2]
      constructor <;> linarith

theorem norm180_congr (x : ℚ) : ∃ k : ℤ, norm180 x = x - 360 * k := by
  induction x using norm180.induct with
  | case1 x h ih =>
      rw [norm180]; simp only [if_pos h]
      obtain ⟨k, hk⟩ := ih
      exact ⟨k - 1, by rw [hk]; push_cast; ring⟩
  | case2 x h1 h2 ih =>
      rw [norm180]; simp only [if_neg h1, if_pos h2]
      obtain ⟨k, hk⟩ := ih
      exact ⟨k + 1, by rw [hk]; push_cast; ring⟩
  | case3 x h1 h2 =>
      rw [norm180]; simp only [if_neg h1, if_neg h2]
      exact ⟨0, by push_cast; ring⟩

theorem norm180_neg (x : ℚ) : norm180 (-x) = -norm180 x := by
  induction x using norm180.induct with
  | case1 x h ih =>
      have e1 : norm180 x = norm180 (x + 360) := by
        rw [norm180, if_pos h]
      have e2 : norm180 (-x) = norm180 (-x - 360) := by
        rw [norm180, if_neg (by linarith), if_pos (by linarith)]
      rw [e1, e2, show -x - 360 = -(x + 360) by ring, ih]
  | case2 x h1 h2 ih =>
      have e1 : norm180 x = norm180 (x - 360) := by
        rw [norm180, if_neg h1, if_pos h2]
      have e2 : norm180 (-x) = norm180 (-x + 360) := by
        rw [norm180, if_pos (by linarith)]
      rw [e1, e2, show -x + 360 = -(x - 360) by ring, ih]
  | case3 x h1 h2 =>
      have e1 : norm180 x = x := by
        rw [norm180, if_neg h1, if_neg h2]
      have e2 : norm180 (-x) = -x := by
        rw [norm180, if_neg (by linarith), if_neg (by linarith)]
      rw [e1, e2]

theorem norm180_eq_self {x : ℚ} (h1 : -180 ≤ x) (h2 : x ≤ 180) :
    norm180 x = x := by
  rw [norm180, if_neg (by linarith), if_neg (by linarith)]

theorem signQ_neg (x : ℚ) : signQ (-x) = -signQ x := by
  unfold signQ
  split_ifs <;> first | linarith | norm_num

theorem signQ_pos {x : ℚ} (h : 0 < x) : signQ x = 1 := by
  unfold signQ
  rw [if_neg (by linarith), if_pos h]

theorem signQ_negv {x : ℚ} (h : x < 0) : signQ x = -1 := by
  unfold signQ
  rw [if_pos h]

theorem signQ_zero : signQ 0 = 0 := by
  unfold signQ
  norm_num

theorem jsMod_bounds (a : ℚ) {b : ℚ} (hb : 0 < b) :
    -b < jsMod a b ∧ jsMod a b < b := by
  unfold jsMod truncQ
  have hba : b * (a / b) = a := by field_simp
  rcases le_or_lt 0 (a / b) with h | h
  · rw [if_pos h]
    have h1 : (⌊a / b⌋ : ℚ) ≤ a / b := Int.floor_le _
    have h2 : a / b < ⌊a / b⌋ + 1 := Int.lt_floor_add_one _
    have l1 : b * (⌊a / b⌋ : ℚ) ≤ b * (a / b) := by
      exact mul_le_mul_of_nonneg_left h1 hb.le
    have l2 : b * (a / b) < b * ((⌊a / b⌋ : ℚ) + 1) := by
      exact mul_lt_mul_of_pos_left h2 hb
    rw [hba] at l1 l2
    constructor <;> nlinarith
  · rw [if_neg (not_le.mpr h)]
    have h1 : a / b ≤ (⌈a / b⌉ : ℚ) := Int.le_ceil _
    have h2 : (⌈a / b⌉ : ℚ) < a / b + 1 := Int.ceil_lt_add_one _
    have l1 : b * (a / b) ≤ b * (⌈a / b⌉ : ℚ) := by
      exact mul_le_mul_of_nonneg_left h1 hb.le
    have l2 : b * (⌈a / b⌉ : ℚ) < b * (a / b + 1) := by
      exact mul_lt_mul_of_pos_left h2 hb
    rw [hba] at l1
    rw [show b * (a / b + 1) = b * (a / b) + b by ring, hba] at l2
    constructor <;> nlinarith

theorem jsMod_nonneg {a b : ℚ} (ha : 0 ≤ a) (hb : 0 < b) : 0 ≤ jsMod a b := by
  unfold jsMod truncQ
  have hba : b * (a / b) = a := by field_simp
  rw [if_pos (div_nonneg ha hb.le)]
  have h1 : (⌊a / b⌋ : ℚ) ≤ a / b := Int.floor_le _
  have l1 : b * (⌊a / b⌋ : ℚ) ≤ b * (a / b) := by
    exact mul_le_mul_of_nonneg_left h1 hb.le
  rw [hba] at l1
  nlinarith

/-- The transcendental part of the JS `Math` object (plus the double constant
`Math.PI`), over which every embedded routine and every theorem is
parameterised: the source's float trigonometry is not re-axiomatised, only
the surrounding (exactly embeddable) computation is verified. -/
structure RMath where
  sin : ℚ → ℚ
  cos : ℚ → ℚ
  tan : ℚ → ℚ
  atan : ℚ → ℚ
  asin : ℚ → ℚ
  acos : ℚ → ℚ
  atan2 : ℚ → ℚ → ℚ
  sqrt : ℚ → ℚ
  pi : ℚ

/-- Decimal digits of a natural number, as JS number-to-string produces for
the small non-negative integers appearing in time strings. -/
def natChars (n : ℕ) : List Char := Nat.toDigits 10 n

/-- Characters that can appear in a `formatTime` output (digits, colon,
space, and the AM/PM letters). -/
def isTimeChar (c : Char) : Bool :=
  c.isDigit || c == ':' || c == ' ' || c == 'A' || c == 'P' || c == 'M'

/-- The hour/minute rendering part of `formatTime` (shared verbatim by
`MoonProvider`, `PlanetProvider` and `CelestialEventsProvider`). -/
def fmtHM (use24 : Bool) (hours minutes : ℤ) : List Char :=
  if use24 then
    (if hours < 10 then '0' :: natChars hours.toNat else natChars hours.toNat) ++ [':'] ++
      (if minutes < 10 then '0' :: natChars minutes.toNat else natChars minutes.toNat)
  else
    natChars (if hours.emod 12 = 0 then (12:ℤ) else hours.emod 12).toNat ++ [':'] ++
      (if minutes < 10 then '0' :: natChars minutes.toNat else natChars minutes.toNat) ++
      [' '] ++ (if 12 ≤ hours then ['P', 'M'] else ['A', 'M'])

/-- `formatTime`: hours/minutes of the local wall clock, 12h or 24h.
`tz` is the fixed local-UTC offset in minutes (JS `Date#getHours` resolves
the host time zone; the embedding takes the offset as a parameter).  JS
`Date` stores an integral millisecond value, hence the floor. -/
def formatTimeList (use24 : Bool) (tz : ℤ) (ms : ℚ) : List Char :=
  let loc : ℤ := ⌊ms⌋ + tz * 60000
  fmtHM use24 ((loc.ediv 3600000).emod 24) ((loc.ediv 60000).emod 60)

theorem natChars_digits : ∀ n : ℕ, n < 60 → ∀ c ∈ natChars n, c.isDigit = true := by
  decide

theorem natChars_ne_nil : ∀ n : ℕ, n < 60 → natChars n ≠ [] := by
  decide

theorem fmtHM_time (use24 : Bool) {hours minutes : ℤ}
    (hh0 : 0 ≤ hours) (hh : hours < 24) (hm0 : 0 ≤ minutes) (hm : minutes < 60) :
    ∀ c ∈ fmtHM use24 hours minutes, isTimeChar c = true := by
  intro c hc
  have hdig : ∀ n : ℕ, n < 60 → ∀ d ∈ natChars n, isTimeChar d = true := by
    intro n hn d hd
    have := natChars_digits n hn d hd
    unfold isTimeChar
    rw [this]
    rfl
  have h12a : 0 ≤ hours.emod 12 := Int.emod_nonneg _ (by norm_num)
  have h12b : hours.emod 12 < 12 := Int.emod_lt_of_pos _ (by norm_num)
  have hmS : ∀ d ∈ (if minutes < 10 then '0' :: natChars minutes.toNat
      else natChars minutes.toNat), isTimeChar d = true := by
    intro d hd
    split at hd
    · rcases List.mem_cons.mp hd with rfl | hd
      · decide
      · exact hdig _ (by omega) d hd
    · exact hdig _ (by omega) d hd
  unfold fmtHM at hc
  cases use24 with
  | true =>
      rw [if_pos rfl] at hc
      simp only [List.append_assoc, List.mem_append, List.mem_cons,
        List.mem_singleton, List.not_mem_nil, or_false] at hc
      rcases hc with hc | hc | hc
      · split at hc
        · rcases List.mem_cons.mp hc with rfl | hc
          · decide
          · exact hdig _ (by omega) c hc
        · exact hdig _ (by omega) c hc
      · subst hc; decide
      · exact hmS c hc
  | false =>
      rw [if_neg (by decide)] at hc
      simp only [List.append_assoc, List.mem_append, List.mem_cons,
        List.mem_singleton, List.not_mem_nil, or_false] at hc
      rcases hc with hc | hc | hc | hc | hc
      · refine hdig _ ?_ c hc
        split <;> omega
      · subst hc; decide
      · exact hmS c hc
      · subst hc; decide
      · split at hc <;> rcases List.mem_cons.mp hc with rfl | hc <;>
          first
          | decide
          | (rcases List.mem_singleton.mp hc with rfl; decide)

theorem fmtHM_head (use24 : Bool) {hours minutes : ℤ}
    (hh0 : 0 ≤ hours) (hh : hours < 24) :
    ∃ c rest, fmtHM use24 hours minutes = c :: rest ∧ c.isDigit = true := by
  unfold fmtHM
  cases use24 with
  | true =>
      rw [if_pos rfl]
      split
      · exact ⟨'0', _, rfl, by decide⟩
      · rcases hn : natChars hours.toNat with _ | ⟨c, rest⟩
        · exact absurd hn (natChars_ne_nil _ (by omega))
        · refine ⟨c, rest ++ [':'] ++
            (if minutes < 10 then '0' :: natChars minutes.toNat
             else natChars minutes.toNat), rfl, ?_⟩
          refine natChars_digits hours.toNat (by omega) c ?_
          rw [hn]
          exact List.mem_cons_self c rest
  | false =>
      rw [if_neg (by decide)]
      have h12a : 0 ≤ hours.emod 12 := Int.emod_nonneg _ (by norm_num)
      have h12b : hours.emod 12 < 12 := Int.emod_lt_of_pos _ (by norm_num)
      have hb : (if hours.emod 12 = 0 then (12:ℤ) else hours.emod 12).toNat < 60 := by
        split <;> omega
      rcases hn : natChars (if hours.emod 12 = 0 then (12:ℤ) else hours.emod 12).toNat
          with _ | ⟨c, rest⟩
      · exact absurd hn (natChars_ne_nil _ hb)
      · refine ⟨c, rest ++ [':'] ++
          (if minutes < 10 then '0' :: natChars minutes.toNat
           else natChars minutes.toNat) ++ [' '] ++
          (if 12 ≤ hours then ['P', 'M'] else ['A', 'M']), rfl, ?_⟩
        refine natChars_digits (if hours.emod 12 = 0 then (12:ℤ)
          else hours.emod 12).toNat hb c ?_
        rw [hn]
        exact List.mem_cons_self c rest

theorem formatTimeList_time (use24 : Bool) (tz : ℤ) (ms : ℚ) :
    ∀ c ∈ formatTimeList use24 tz ms, isTimeChar c = true := by
  unfold formatTimeList
  exact fmtHM_time use24 (Int.emod_nonneg _ (by norm_num))
    (Int.emod_lt_of_pos _ (by norm_num)) (Int.emod_nonneg _ (by norm_num))
    (Int.emod_lt_of_pos _ (by norm_num))

theorem formatTimeList_head (use24 : Bool) (tz : ℤ) (ms : ℚ) :
    ∃ c rest, formatTimeList use24 tz ms = c :: rest ∧ c.isDigit = true := by
  unfold formatTimeList
  exact fmtHM_head use24 (Int.emod_nonneg _ (by norm_num))
    (Int.emod_lt_of_pos _ (by norm_num))

/-! ## The settings fields consumed by the celestial-events module -/

structure Settings where
  enableCelestialEvents : Bool
  showAdvancedAstronomy : Bool
  showRetrogrades : Bool
  showAstrology : Bool
  showDeepAstrology : Bool
  use24HourFormat : Bool

/-! ## Events and the aspect scanner (`CelestialEventsProvider.checkAspects`) -/

/-- An entry of the `rawEvents` array of
`CelestialEventsProvider.getDataForDate`: millisecond instant plus rendered
text.  `angle` is a ghost annotation recording the `targetAngle` of the
`checkCrossing` call that pushed the event (0 for non-aspect events); it
influences no computation and no rendered text. -/
structure Ev where
  timeMs : ℚ
  angle : ℚ
  text : List Char

/-- Projection to the observable data of a detected aspect crossing:
its interpolated instant and its aspect angle. -/
def evProj (e : Ev) : ℚ × ℚ := (e.timeMs, e.angle)

/-- The detection test of `checkCrossing`:
`Math.sign(d1) !== Math.sign(d2) && Math.abs(d1 - d2) < 20`. -/
def detects (d1 d2 : ℚ) : Prop := signQ d1 ≠ signQ d2 ∧ |d1 - d2| < 20

instance (d1 d2 : ℚ) : Decidable (detects d1 d2) := by
  unfold detects
  infer_instance

theorem detects_neg_iff (d1 d2 : ℚ) : detects (-d1) (-d2) ↔ detects d1 d2 := by
  unfold detects
  rw [signQ_neg, signQ_neg]
  constructor
  · rintro ⟨h1, h2⟩
    refine ⟨fun he => h1 (by rw [he]), ?_⟩
    rwa [show -d1 - -d2 = -(d1 - d2) by ring, abs_neg] at h2
  · rintro ⟨h1, h2⟩
    refine ⟨fun he => h1 (by exact neg_injective he), ?_⟩
    rwa [show -d1 - -d2 = -(d1 - d2) by ring, abs_neg]

theorem detects_ne {d1 d2 : ℚ} (h : detects d1 d2) : d1 ≠ d2 := by
  intro he
  exact h.1 (by rw [he])

theorem detects_bound_fst {d1 d2 : ℚ} (h : detects d1 d2) : |d1| < 20 := by
  obtain ⟨h1, h2⟩ := h
  rw [abs_lt] at h2 ⊢
  by_contra hc
  push_neg at hc
  rcases le_or_lt 20 d1 with hge | hlt
  · rcases lt_trichotomy d2 0 with hd | hd | hd
    · linarith
    · subst hd; linarith
    · exact h1 (by rw [signQ_pos (by linarith : (0:ℚ) < d1), signQ_pos hd])
  · have hle : d1 ≤ -20 := by
      by_contra hh
      push_neg at hh
      exact absurd (hc hh) (not_le.mpr hlt)
    rcases lt_trichotomy d2 0 with hd | hd | hd
    · exact h1 (by rw [signQ_negv (by linarith : d1 < 0), signQ_negv hd])
    · subst hd; linarith
    · linarith

theorem detects_symm {d1 d2 : ℚ} (h : detects d1 d2) : detects d2 d1 := by
  refine ⟨h.1.symm, ?_⟩
  rw [abs_sub_comm]
  exact h.2

theorem detects_bound_snd {d1 d2 : ℚ} (h : detects d1 d2) : |d2| < 20 :=
  detects_bound_fst (detects_symm h)

/-- If `u + v` is a multiple of 360 and the normalisation of `u` is small,
the two normalisations are exact negatives (the `±180` boundary of the
normalisation loops cannot interfere). -/
theorem norm_opp {u v : ℚ} (hm : ∃ m : ℤ, u + v = 360 * m)
    (hu : |norm180 u| < 20) : norm180 v = -norm180 u := by
  obtain ⟨m, hmv⟩ := hm
  obtain ⟨k, hk⟩ := norm180_congr u
  obtain ⟨k', hk'⟩ := norm180_congr v
  obtain ⟨hv1, hv2⟩ := norm180_mem v
  have hsum : norm180 u + norm180 v = 360 * ((m : ℚ) - k - k') := by
    rw [hk, hk']
    push_cast
    linarith
  have habs : |norm180 u + norm180 v| < 200 := by
    rw [abs_lt] at hu ⊢
    constructor <;> linarith
  rw [hsum] at habs
  have hK : ((m : ℚ) - k - k') = ((m - k - k' : ℤ) : ℚ) := by push_cast; ring
  rw [hK, abs_mul, abs_of_pos (show (0:ℚ) < 360 by norm_num)] at habs
  have : |((m - k - k' : ℤ) : ℚ)| < 1 := by linarith
  have hz : m - k - k' = 0 := by
    rw [← Int.cast_abs] at this
    have h1 : |m - k - k'| < 1 := by exact_mod_cast this
    rcases abs_lt.mp h1 with ⟨ha, hb⟩
    omega
  have : norm180 u + norm180 v = 0 := by
    rw [hsum, hK, hz]
    norm_num
  linarith

/-- The rendered text of an aspect event:
`` `${timeStr} ${symbol} **${label}:** ${sym1} ${sym2} (${name1} & ${name2})` ``. -/
def aspectText (use24 : Bool) (tz : ℤ) (timeMs : ℚ)
    (symbol label sym1 sym2 name1 name2 : List Char) : List Char :=
  formatTimeList use24 tz timeMs ++ [' '] ++ symbol ++ (" **".toList) ++ label ++
    (":** ".toList) ++ sym1 ++ [' '] ++ sym2 ++ (" (".toList) ++ name1 ++
    (" & ".toList) ++ name2 ++ [')']

/-- The event pushed by a successful crossing test: linear interpolation of
the zero of `d` across the day, `timeMs = startTimeMs + fraction * 86400000`. -/
def aspectEv (use24 : Bool) (tz : ℤ) (sym1 sym2 name1 name2 : List Char)
    (startTimeMs d1 d2 targetAngle : ℚ) (symbol label : List Char) : Ev :=
  { timeMs := startTimeMs + ((0 - d1) / (d2 - d1)) * 86400000
    angle := targetAngle
    text := aspectText use24 tz (startTimeMs + ((0 - d1) / (d2 - d1)) * 86400000)
      symbol label sym1 sym2 name1 name2 }

/-- The `if sign-change and |d1-d2| < 20 then push` body of one angle test
inside `checkCrossing`. -/
def branchOut (use24 : Bool) (tz : ℤ) (sym1 sym2 name1 name2 : List Char)
    (startTimeMs d1 d2 targetAngle : ℚ) (symbol label : List Char) : List Ev :=
  if detects d1 d2 then
    [aspectEv use24 tz sym1 sym2 name1 name2 startTimeMs d1 d2 targetAngle symbol label]
  else []

/-- One `checkCrossing(targetAngle, symbol, label)` call of `checkAspects`
(CelestialEventsProvider.ts lines 498-527): the positive-angle test, then for
non-0/180 angles the mirrored negative-angle test.  The Moon-Node guard at
the top suppresses the conjunction (0) and opposition (180) checks. -/
def crossingEvents (use24 : Bool) (tz : ℤ) (sym1 sym2 name1 name2 : List Char)
    (diffStart diffEnd startTimeMs : ℚ) (isMoonNode : Bool)
    (targetAngle : ℚ) (symbol label : List Char) : List Ev :=
  if isMoonNode = true ∧ (targetAngle = 0 ∨ targetAngle = 180) then []
  else
    branchOut use24 tz sym1 sym2 name1 name2 startTimeMs
      (norm180 (diffStart - targetAngle)) (norm180 (diffEnd - targetAngle))
      targetAngle symbol label ++
    (if targetAngle ≠ 0 ∧ targetAngle ≠ 180 then
      branchOut use24 tz sym1 sym2 name1 name2 startTimeMs
        (norm180 (diffStart - -targetAngle)) (norm180 (diffEnd - -targetAngle))
        targetAngle symbol label
    else [])

/-- `CelestialEventsProvider.checkAspects` (lines 494-546): the two basic
angles always, the astrology angles behind `showAstrology || showDeepAstrology`,
the minor angles behind `showDeepAstrology`. -/
def ccAt (s : Settings) (tz : ℤ) (name1 sym1 : List Char)
    (start1 end1 : ℚ) (name2 sym2 : List Char) (start2 end2 : ℚ)
    (startTimeMs : ℚ) (isMoonNode : Bool) (t : ℚ) (symbol label : List Char) :
    List Ev :=
  crossingEvents s.use24HourFormat tz sym1 sym2 name1 name2
    (start1 - start2) (end1 - end2) startTimeMs isMoonNode t symbol label

def checkAspects (s : Settings) (tz : ℤ) (name1 sym1 : List Char)
    (start1 end1 : ℚ) (name2 sym2 : List Char) (start2 end2 : ℚ)
    (startTimeMs : ℚ) (isMoonNode : Bool) : List Ev :=
  ccAt s tz name1 sym1 start1 end1 name2 sym2 start2 end2 startTimeMs isMoonNode
      0 ("☌".toList) ("Conjunction".toList) ++
  ccAt s tz name1 sym1 start1 end1 name2 sym2 start2 end2 startTimeMs isMoonNode
      180 ("☍".toList) ("Opposition".toList) ++
  (if s.showAstrology = true ∨ s.showDeepAstrology = true then
    ccAt s tz name1 sym1 start1 end1 name2 sym2 start2 end2 startTimeMs isMoonNode
        120 ("△".toList) ("Trine".toList) ++
    ccAt s tz name1 sym1 start1 end1 name2 sym2 start2 end2 startTimeMs isMoonNode
        90 ("□".toList) ("Square".toList) ++
    ccAt s tz name1 sym1 start1 end1 name2 sym2 start2 end2 startTimeMs isMoonNode
        60 ("⚹".toList) ("Sextile".toList)
  else []) ++
  (if s.showDeepAstrology = true then
    ccAt s tz name1 sym1 start1 end1 name2 sym2 start2 end2 startTimeMs isMoonNode
        30 ("⚺".toList) ("Semi-Sextile".toList) ++
    ccAt s tz name1 sym1 start1 end1 name2 sym2 start2 end2 startTimeMs isMoonNode
        45 ("∠".toList) ("Semi-Square".toList) ++
    ccAt s tz name1 sym1 start1 end1 name2 sym2 start2 end2 startTimeMs isMoonNode
        72 ("⬠".toList) ("Quintile".toList) ++
    ccAt s tz name1 sym1 start1 end1 name2 sym2 start2 end2 startTimeMs isMoonNode
        135 ("⚼".toList) ("Sesquiquadrate".toList) ++
    ccAt s tz name1 sym1 start1 end1 name2 sym2 start2 end2 startTimeMs isMoonNode
        144 ("bQ".toList) ("Bi-Quintile".toList)
  else [])

theorem frac_neg (d1 d2 : ℚ) : (0 - -d1) / (-d2 - -d1) = (0 - d1) / (d2 - d1) := by
  rw [show (0 : ℚ) - -d1 = d1 by ring, show -d2 - -d1 = -(d2 - d1) by ring,
    div_neg, show (0 : ℚ) - d1 = -d1 by ring, neg_div]

/-- Negating both interpolation inputs leaves the detection outcome, the
interpolated instant, and the angle unchanged (only the rendered names can
differ, which the projection ignores). -/
theorem branchOut_proj_neg (use24 : Bool) (tz : ℤ)
    (sa sb na nb sa' sb' na' nb' symbol label symbol' label' : List Char)
    (T d1 d2 t : ℚ) :
    (branchOut use24 tz sa' sb' na' nb' T (-d1) (-d2) t symbol' label').map evProj =
      (branchOut use24 tz sa sb na nb T d1 d2 t symbol label).map evProj := by
  unfold branchOut
  by_cases hd : detects d1 d2
  · rw [if_pos ((detects_neg_iff d1 d2).mpr hd), if_pos hd]
    simp only [List.map_cons, List.map_nil, evProj, aspectEv]
    rw [frac_neg]
  · rw [if_neg (fun hc => hd ((detects_neg_iff d1 d2).mp hc)), if_neg hd]

/-- Swapping the two bodies negates the longitude differences; the projected
crossing list is a permutation of the original. -/
theorem crossingEvents_swap (use24 : Bool) (tz : ℤ)
    (sa sb na nb sa' sb' na' nb' symbol label symbol' label' : List Char)
    (dS dE T : ℚ) (m : Bool) (t : ℚ) :
    ((crossingEvents use24 tz sa sb na nb dS dE T m t symbol label).map evProj).Perm
      ((crossingEvents use24 tz sa' sb' na' nb' (-dS) (-dE) T m t symbol' label').map evProj) := by
  unfold crossingEvents
  by_cases hg : m = true ∧ (t = 0 ∨ t = 180)
  · rw [if_pos hg, if_pos hg]
  · rw [if_neg hg, if_neg hg]
    by_cases ht : t ≠ 0 ∧ t ≠ 180
    · rw [if_pos ht, if_pos ht]
      have e1 : norm180 (-dS - t) = -norm180 (dS - -t) := by
        rw [show -dS - t = -(dS - -t) by ring, norm180_neg]
      have e2 : norm180 (-dE - t) = -norm180 (dE - -t) := by
        rw [show -dE - t = -(dE - -t) by ring, norm180_neg]
      have e3 : norm180 (-dS - -t) = -norm180 (dS - t) := by
        rw [show -dS - -t = -(dS - t) by ring, norm180_neg]
      have e4 : norm180 (-dE - -t) = -norm180 (dE - t) := by
        rw [show -dE - -t = -(dE - t) by ring, norm180_neg]
      rw [List.map_append, List.map_append, e1, e2, e3, e4,
        branchOut_proj_neg use24 tz sa sb na nb sa' sb' na' nb' symbol label symbol' label',
        branchOut_proj_neg use24 tz sa sb na nb sa' sb' na' nb' symbol label symbol' label']
      exact List.perm_append_comm
    · rw [if_neg ht, if_neg ht]
      simp only [List.append_nil]
      have hor : t = 0 ∨ t = 180 := by
        by_cases h0 : t = 0
        · exact Or.inl h0
        · refine Or.inr ?_
          by_contra h180
          exact ht ⟨h0, h180⟩
      rcases hor with rfl | rfl
      · have e1 : norm180 (-dS - 0) = -norm180 (dS - 0) := by
          rw [show -dS - 0 = -(dS - 0) by ring, norm180_neg]
        have e2 : norm180 (-dE - 0) = -norm180 (dE - 0) := by
          rw [show -dE - 0 = -(dE - 0) by ring, norm180_neg]
        rw [e1, e2,
          branchOut_proj_neg use24 tz sa sb na nb sa' sb' na' nb' symbol label symbol' label']
      · by_cases hd : detects (norm180 (dS - 180)) (norm180 (dE - 180))
        · have hd1 : norm180 (-dS - 180) = -norm180 (dS - 180) := by
            refine norm_opp ⟨-1, by push_cast; ring⟩ (detects_bound_fst hd)
          have hd2 : norm180 (-dE - 180) = -norm180 (dE - 180) := by
            refine norm_opp ⟨-1, by push_cast; ring⟩ (detects_bound_snd hd)
          rw [hd1, hd2,
            branchOut_proj_neg use24 tz sa sb na nb sa' sb' na' nb' symbol label symbol' label']
        · by_cases hd' : detects (norm180 (-dS - 180)) (norm180 (-dE - 180))
          · exfalso
            have h1 : norm180 (dS - 180) = -norm180 (-dS - 180) := by
              refine norm_opp ⟨-1, by push_cast; ring⟩ (detects_bound_fst hd')
            have h2 : norm180 (dE - 180) = -norm180 (-dE - 180) := by
              refine norm_opp ⟨-1, by push_cast; ring⟩ (detects_bound_snd hd')
            apply hd
            rw [h1, h2]
            exact (detects_neg_iff _ _).mpr hd'
          · unfold branchOut
            rw [if_neg hd, if_neg hd']

theorem crossingEvents_angle (use24 : Bool) (tz : ℤ) (sa sb na nb : List Char)
    (dS dE T : ℚ) (m : Bool) (t : ℚ) (symbol label : List Char) :
    ∀ e ∈ crossingEvents use24 tz sa sb na nb dS dE T m t symbol label,
      e.angle = t := by
  intro e he
  unfold crossingEvents branchOut at he
  split at he
  · exact absurd he (List.not_mem_nil e)
  · rcases List.mem_append.mp he with h | h
    · split at h
      · rcases List.mem_singleton.mp h with rfl
        rfl
      · exact absurd h (List.not_mem_nil e)
    · split at h
      · split at h
        · rcases List.mem_singleton.mp h with rfl
          rfl
        · exact absurd h (List.not_mem_nil e)
      · exact absurd h (List.not_mem_nil e)

theorem ccAt_angle (s : Settings) (tz : ℤ) (n1 y1 : List Char)
    (s1 e1 : ℚ) (n2 y2 : List Char) (s2 e2 T : ℚ) (m : Bool) (t : ℚ)
    (symbol label : List Char) :
    ∀ e ∈ ccAt s tz n1 y1 s1 e1 n2 y2 s2 e2 T m t symbol label, e.angle = t := by
  intro e he
  exact crossingEvents_angle _ _ _ _ _ _ _ _ _ _ _ _ _ _ he

theorem ccAt_node_zero (s : Settings) (tz : ℤ) (n1 y1 : List Char)
    (s1 e1 : ℚ) (n2 y2 : List Char) (s2 e2 T : ℚ) {t : ℚ}
    (ht : t = 0 ∨ t = 180) (symbol label : List Char) :
    ccAt s tz n1 y1 s1 e1 n2 y2 s2 e2 T true t symbol label = [] := by
  unfold ccAt crossingEvents
  rw [if_pos ⟨rfl, ht⟩]

theorem ccAt_node_other (s : Settings) (tz : ℤ) (n1 y1 : List Char)
    (s1 e1 : ℚ) (n2 y2 : List Char) (s2 e2 T : ℚ) {t : ℚ}
    (ht : ¬(t = 0 ∨ t = 180)) (symbol label : List Char) :
    ccAt s tz n1 y1 s1 e1 n2 y2 s2 e2 T true t symbol label =
      ccAt s tz n1 y1 s1 e1 n2 y2 s2 e2 T false t symbol label := by
  unfold ccAt crossingEvents
  have hfalse : ¬(false = true ∧ (t = 0 ∨ t = 180)) := by simp
  rw [if_neg (fun h => ht h.2), if_neg hfalse]

/-- The "not a conjunction/opposition entry" test on the recorded angle. -/
def moonNodeKeep (e : Ev) : Bool :=
  !(decide (e.angle = 0) || decide (e.angle = 180))

theorem filter_ccAt_self (s : Settings) (tz : ℤ) (n1 y1 : List Char)
    (s1 e1 : ℚ) (n2 y2 : List Char) (s2 e2 T : ℚ) (m : Bool) {t : ℚ}
    (ht : ¬(t = 0 ∨ t = 180)) (symbol label : List Char) :
    (ccAt s tz n1 y1 s1 e1 n2 y2 s2 e2 T m t symbol label).filter moonNodeKeep =
      ccAt s tz n1 y1 s1 e1 n2 y2 s2 e2 T m t symbol label := by
  refine List.filter_eq_self.mpr ?_
  intro e he
  have ha := ccAt_angle s tz n1 y1 s1 e1 n2 y2 s2 e2 T m t symbol label e he
  unfold moonNodeKeep
  push_neg at ht
  rw [ha, decide_eq_false ht.1, decide_eq_false ht.2]
  rfl

theorem filter_ccAt_nil (s : Settings) (tz : ℤ) (n1 y1 : List Char)
    (s1 e1 : ℚ) (n2 y2 : List Char) (s2 e2 T : ℚ) (m : Bool) {t : ℚ}
    (ht : t = 0 ∨ t = 180) (symbol label : List Char) :
    (ccAt s tz n1 y1 s1 e1 n2 y2 s2 e2 T m t symbol label).filter moonNodeKeep = [] := by
  refine List.filter_eq_nil_iff.mpr ?_
  intro e he
  have ha := ccAt_angle s tz n1 y1 s1 e1 n2 y2 s2 e2 T m t symbol label e he
  unfold moonNodeKeep
  rcases ht with rfl | rfl
  · rw [ha, decide_eq_true rfl]
    simp
  · rw [ha, decide_eq_true rfl]
    simp

/-- Claim C8 (theorem): with the Moon-vs-Node flag set, `checkAspects` emits
exactly the events of the unflagged run whose angle is neither 0 nor 180 —
conjunction and opposition are suppressed (node-crossing events already
report them) and no other angle is affected. -/
theorem checkAspects_moonNode (s : Settings) (tz : ℤ) (n1 y1 n2 y2 : List Char)
    (start1 end1 start2 end2 T : ℚ) :
    checkAspects s tz n1 y1 start1 end1 n2 y2 start2 end2 T true =
      (checkAspects s tz n1 y1 start1 end1 n2 y2 start2 end2 T false).filter moonNodeKeep ∧
    ∀ e ∈ checkAspects s tz n1 y1 start1 end1 n2 y2 start2 end2 T true,
      e.angle ≠ 0 ∧ e.angle ≠ 180 := by
  constructor
  · unfold checkAspects
    simp only [List.filter_append]
    rw [filter_ccAt_nil _ _ _ _ _ _ _ _ _ _ _ _ (Or.inl rfl),
      filter_ccAt_nil _ _ _ _ _ _ _ _ _ _ _ _ (Or.inr rfl),
      ccAt_node_zero _ _ _ _ _ _ _ _ _ _ _ (Or.inl rfl),
      ccAt_node_zero _ _ _ _ _ _ _ _ _ _ _ (Or.inr rfl)]
    congr 1
    congr 1
    · split
      · simp only [List.filter_append]
        rw [filter_ccAt_self _ _ _ _ _ _ _ _ _ _ _ _ (by norm_num),
          filter_ccAt_self _ _ _ _ _ _ _ _ _ _ _ _ (by norm_num),
          filter_ccAt_self _ _ _ _ _ _ _ _ _ _ _ _ (by norm_num),
          ccAt_node_other _ _ _ _ _ _ _ _ _ _ _ (by norm_num),
          ccAt_node_other _ _ _ _ _ _ _ _ _ _ _ (by norm_num),
          ccAt_node_other _ _ _ _ _ _ _ _ _ _ _ (by norm_num)]
      · rfl
    · split
      · simp only [List.filter_append]
        rw [filter_ccAt_self _ _ _ _ _ _ _ _ _ _ _ _ (by norm_num),
          filter_ccAt_self _ _ _ _ _ _ _ _ _ _ _ _ (by norm_num),
          filter_ccAt_self _ _ _ _ _ _ _ _ _ _ _ _ (by norm_num),
          filter_ccAt_self _ _ _ _ _ _ _ _ _ _ _ _ (by norm_num),
          filter_ccAt_self _ _ _ _ _ _ _ _ _ _ _ _ (by norm_num),
          ccAt_node_other _ _ _ _ _ _ _ _ _ _ _ (by norm_num),
          ccAt_node_other _ _ _ _ _ _ _ _ _ _ _ (by norm_num),
          ccAt_node_other _ _ _ _ _ _ _ _ _ _ _ (by norm_num),
          ccAt_node_other _ _ _ _ _ _ _ _ _ _ _ (by norm_num),
          ccAt_node_other _ _ _ _ _ _ _ _ _ _ _ (by norm_num)]
      · rfl
  · intro e he
    unfold checkAspects at he
    rw [ccAt_node_zero _ _ _ _ _ _ _ _ _ _ _ (Or.inl rfl),
      ccAt_node_zero _ _ _ _ _ _ _ _ _ _ _ (Or.inr rfl)] at he
    simp only [List.nil_append, List.mem_append] at he
    rcases he with he | he
    · split at he
      · simp only [List.mem_append] at he
        rcases he with (he | he) | he <;>
          · have := ccAt_angle _ _ _ _ _ _ _ _ _ _ _ _ _ _ _ _ he
            rw [this]
            norm_num
      · exact absurd he (List.not_mem_nil e)
    · split at he
      · simp only [List.mem_append] at he
        rcases he with (((he | he) | he) | he) | he <;>
          · have := ccAt_angle _ _ _ _ _ _ _ _ _ _ _ _ _ _ _ _ he
            rw [this]
            norm_num
      · exact absurd he (List.not_mem_nil e)

/-- Claim C7: aspect detection is symmetric in its two bodies.  Supplying the
same positions in the opposite order yields, for every enabled angle, the
same detected crossings: same interpolated instant and same aspect angle
(as a multiset; only the rendered name order differs). -/
theorem checkAspects_symm (s : Settings) (tz : ℤ) (n1 y1 n2 y2 : List Char)
    (start1 end1 start2 end2 T : ℚ) (m : Bool) :
    ((checkAspects s tz n1 y1 start1 end1 n2 y2 start2 end2 T m).map evProj).Perm
      ((checkAspects s tz n2 y2 start2 end2 n1 y1 start1 end1 T m).map evProj) := by
  unfold checkAspects ccAt
  have hneg : start2 - start1 = -(start1 - start2) := by ring
  have hneg' : end2 - end1 = -(end1 - end2) := by ring
  rw [hneg, hneg']
  simp only [List.map_append]
  refine List.Perm.append (List.Perm.append (List.Perm.append ?_ ?_) ?_) ?_
  · exact crossingEvents_swap _ _ _ _ _ _ _ _ _ _ _ _ _ _ _ _ _ _ _
  · exact crossingEvents_swap _ _ _ _ _ _ _ _ _ _ _ _ _ _ _ _ _ _ _
  · split
    · simp only [List.map_append]
      refine List.Perm.append (List.Perm.append ?_ ?_) ?_ <;>
        exact crossingEvents_swap _ _ _ _ _ _ _ _ _ _ _ _ _ _ _ _ _ _ _
    · exact List.Perm.refl _
  · split
    · simp only [List.map_append]
      refine List.Perm.append (List.Perm.append (List.Perm.append
        (List.Perm.append ?_ ?_) ?_) ?_) ?_ <;>
        exact crossingEvents_swap _ _ _ _ _ _ _ _ _ _ _ _ _ _ _ _ _ _ _
    · exact List.Perm.refl _

/-- Splitting a character string into an all-time-character prefix followed by
a non-time-character head is unambiguous. -/
theorem split_time_core {p1 p2 r1 r2 : List Char} {a b : Char}
    (hp1 : ∀ c ∈ p1, isTimeChar c = true) (hp2 : ∀ c ∈ p2, isTimeChar c = true)
    (ha : isTimeChar a = false) (hb : isTimeChar b = false)
    (h : p1 ++ a :: r1 = p2 ++ b :: r2) : p1 = p2 ∧ a = b ∧ r1 = r2 := by
  induction p1 generalizing p2 with
  | nil =>
      cases p2 with
      | nil => simpa using h
      | cons c2 t2 =>
          simp only [List.nil_append, List.cons_append, List.cons.injEq] at h
          exfalso
          have := hp2 c2 (List.mem_cons_self c2 t2)
          rw [← h.1] at this
          exact absurd (this.symm.trans ha) (by decide)
  | cons c1 t1 ih =>
      cases p2 with
      | nil =>
          simp only [List.cons_append, List.nil_append, List.cons.injEq] at h
          exfalso
          have := hp1 c1 (List.mem_cons_self c1 t1)
          rw [h.1] at this
          exact absurd (this.symm.trans hb) (by decide)
      | cons c2 t2 =>
          simp only [List.cons_append, List.cons.injEq] at h
          obtain ⟨rfl, h2⟩ := h
          obtain ⟨he, ha', hr⟩ := ih (fun c hc => hp1 c (List.mem_cons_of_mem _ hc))
            (fun c hc => hp2 c (List.mem_cons_of_mem _ hc)) h2
          exact ⟨by rw [he], ha', hr⟩

/-! ## The math engine of `CelestialEventsProvider` -/

structure MoonFull where
  lon : ℚ
  lat : ℚ
  dist : ℚ
  dec : ℚ

/-- `getMoonFullPos` (truncated Meeus series).  The provider always calls it
with `offsetDays = 0`. -/
def getMoonFullPos (rm : RMath) (dateMs : ℚ) (offsetDays : ℚ) : MoonFull :=
  let t := dateMs + offsetDays * 86400000
  let d := t / 86400000 - 10957.5
  let rad := rm.pi / 180
  let L := (218.316 + 13.176396 * d) * rad
  let M := (134.963 + 13.064993 * d) * rad
  let F := (93.272 + 13.229350 * d) * rad
  let D := (297.850 + 12.190749 * d) * rad
  let Ms := (357.529 + 0.98560028 * d) * rad
  let l := L + 6.289 * rad * rm.sin M + 1.274 * rad * rm.sin (2 * D - M)
    + 0.658 * rad * rm.sin (2 * D) + (-0.185) * rad * rm.sin Ms
    + (-0.114) * rad * rm.sin (2 * F)
  let b := 5.128 * rad * rm.sin F + 0.280 * rad * rm.sin (M + F)
    + 0.278 * rad * rm.sin (M - F) + 0.173 * rad * rm.sin (2 * D - F)
  let dist := 385000.56 + (-20905.355) * rm.cos M + (-3699.111) * rm.cos (2 * D - M)
    + (-2955.968) * rm.cos (2 * D)
  let obl := 23.439 * rad
  let sinDec := rm.sin b * rm.cos obl + rm.cos b * rm.sin obl * rm.sin l
  { lon := jsMod (l * (180 / rm.pi)) 360
    lat := b * (180 / rm.pi)
    dist := dist
    dec := rm.asin sinDec * (180 / rm.pi) }

/-- `getSunPosition` of the provider (ecliptic longitude in degrees). -/
def sunEclipticLongitude (rm : RMath) (dateMs : ℚ) : ℚ :=
  let d := dateMs / 86400000 - 10957.5
  let rad := rm.pi / 180
  let M := (357.529 + 0.98560028 * d) * rad
  let L := (280.466 + 0.98564736 * d) * rad
  (L + 1.915 * rad * rm.sin M + 0.020 * rad * rm.sin (2 * M)) * (180 / rm.pi)

/-- One J2000 orbital-element record of the `elems` table. -/
structure OrbEl where
  N : ℚ
  i : ℚ
  w : ℚ
  a : ℚ
  e : ℚ
  M : ℚ

/-- The `elems` table of `getBodyLongitude` (object-literal lookup keyed by
body id; absent key means a falsy lookup). -/
def elemsFor (d : ℚ) (bodyId : List Char) : Option OrbEl :=
  if bodyId = ("mercury".toList) then
    some ⟨48.3313, 7.0047, 29.1241, 0.387098, 0.205635, 168.6562 + 4.0923344368 * d⟩
  else if bodyId = ("venus".toList) then
    some ⟨76.6799, 3.3946, 54.8910, 0.723330, 0.006773, 48.0052 + 1.6021302244 * d⟩
  else if bodyId = ("mars".toList) then
    some ⟨49.5574, 1.8497, 286.5016, 1.523688, 0.093405, 18.6021 + 0.5240207766 * d⟩
  else if bodyId = ("jupiter".toList) then
    some ⟨100.4542, 1.3030, 273.8777, 5.202561, 0.048498, 19.8950 + 0.0830853001 * d⟩
  else if bodyId = ("saturn".toList) then
    some ⟨113.6634, 2.4886, 339.3939, 9.55475, 0.055546, 316.9670 + 0.0334442282 * d⟩
  else if bodyId = ("uranus".toList) then
    some ⟨74.0005, 0.7733, 96.6612, 19.18171, 0.047318, 142.5905 + 0.011725806 * d⟩
  else if bodyId = ("neptune".toList) then
    some ⟨131.7806, 1.7700, 272.8461, 30.05826, 0.008606, 260.2471 + 0.005995147 * d⟩
  else if bodyId = ("pluto".toList) then
    some ⟨110.30347, 17.14175, 224.06676, 39.48168677, 0.24880766, 14.882 + 0.00396 * d⟩
  else if bodyId = ("chiron".toList) then
    some ⟨209.3, 6.9, 339.4, 13.67, 0.38, 339.6 + 0.019 * d⟩
  else none

/-- The five fixed-point correction steps of the Kepler solver:
`M_calc = E - (180/pi) e sin(E rad); E = E + (M - M_calc)`. -/
def keplerIter (rm : RMath) (rad e M0 : ℚ) : ℕ → ℚ → ℚ
  | 0, E => E
  | n + 1, E =>
      keplerIter rm rad e M0 n (E + (M0 - (E - (180 / rm.pi) * e * rm.sin (E * rad))))

/-- `CelestialEventsProvider.getBodyLongitude` (lines 549-604): Node by a
linear regression formula, Sun by the dedicated series, everything else by
Keplerian elements — and `return 0` when the body id is not in the table. -/
def getBodyLongitude (rm : RMath) (dateMs : ℚ) (bodyId : List Char) : ℚ :=
  let d := dateMs / 86400000 - 10957.5
  if bodyId = ("node".toList) then
    jsMod (jsMod (125.04452 - 0.0529535 * d) 360 + 360) 360
  else if bodyId = ("sun".toList) then
    sunEclipticLongitude rm dateMs
  else
    let rad := rm.pi / 180
    match elemsFor d bodyId with
    | none => 0
    | some p =>
      let E0 := p.M + (180 / rm.pi) * p.e * rm.sin (p.M * rad) * (1 + p.e * rm.cos (p.M * rad))
      let E := keplerIter rm rad p.e p.M 5 E0
      let xv := p.a * (rm.cos (E * rad) - p.e)
      let yv := p.a * rm.sqrt (1 - p.e * p.e) * rm.sin (E * rad)
      let r := rm.sqrt (xv * xv + yv * yv)
      let xh := r * (rm.cos (p.N * rad) * rm.cos ((p.w + rm.atan2 yv xv * (180 / rm.pi)) * rad)
        - rm.sin (p.N * rad) * rm.sin ((p.w + rm.atan2 yv xv * (180 / rm.pi)) * rad) * rm.cos (p.i * rad))
      let yh := r * (rm.sin (p.N * rad) * rm.cos ((p.w + rm.atan2 yv xv * (180 / rm.pi)) * rad)
        + rm.cos (p.N * rad) * rm.sin ((p.w + rm.atan2 yv xv * (180 / rm.pi)) * rad) * rm.cos (p.i * rad))
      let Me := 357.529 + 0.98560028 * d
      let Le := 280.466 + 0.98564736 * d
      let le := Le + 1.915 * rm.sin (Me * rad) + 0.020 * rm.sin (2 * Me * rad)
      let Re := 1.00014 - 0.01671 * rm.cos (Me * rad) - 0.00014 * rm.cos (2 * Me * rad)
      let xg := xh + Re * rm.cos (le * rad)
      let yg := yh + Re * rm.sin (le * rad)
      jsMod (rm.atan2 yg xg * (180 / rm.pi) + 360) 360

/-! ## Dates, meteor showers, and the event pipeline -/

/-- A JS `Date` as this provider consumes it: the stored millisecond value
plus the local-calendar month (`getMonth`, 0-based) and day of month
(`getDate`) that the meteor-shower lookup reads. -/
structure JSDate where
  ms : ℚ
  month : ℤ
  dayOfMonth : ℤ

/-- `date.setUTCHours(0,0,0,0)`. -/
def msUTCmidnight (ms : ℚ) : ℚ := 86400000 * (⌊ms / 86400000⌋ : ℚ)

structure Shower where
  name : List Char
  m : ℤ
  d : ℤ
  range : ℤ

def showersList : List Shower :=
  [⟨"Quadrantids".toList, 0, 3, 2⟩,
   ⟨"Lyrids".toList, 3, 22, 1⟩,
   ⟨"Eta Aquariids".toList, 4, 6, 2⟩,
   ⟨"Perseids".toList, 7, 12, 2⟩,
   ⟨"Orionids".toList, 9, 21, 2⟩,
   ⟨"Leonids".toList, 10, 17, 1⟩,
   ⟨"Geminids".toList, 11, 14, 2⟩,
   ⟨"Ursids".toList, 11, 22, 1⟩]

/-- `getMeteorShower`: first shower whose month matches and whose peak day is
within the tolerance window. -/
def getMeteorShower (date : JSDate) : Option (List Char) :=
  (showersList.find? fun s =>
    decide (date.month = s.m) && decide (|date.dayOfMonth - s.d| ≤ s.range)).map
    fun s => s.name ++ (" (Peak)".toList)

/-- Constructor for the non-aspect events (ghost angle 0). -/
def plainEv (timeMs : ℚ) (text : List Char) : Ev :=
  { timeMs := timeMs, angle := 0, text := text }

structure LunarState where
  prevPos : MoonFull
  distTrend : ℚ
  decTrend : ℚ
  events : List Ev

/-- The `getEventTime` interpolation of `getLunarEvents` at target 0 (both
call sites use the default target). -/
def lunarCrossTime (dateMs : ℚ) (i : ℕ) (prevVal currVal : ℚ) : ℚ :=
  dateMs + ((i : ℚ) - 1) * 3600000 + ((0 - prevVal) / (currVal - prevVal)) * 3600000

/-- One iteration of the 24-step hourly scan of `getLunarEvents`
(lines 368-415): node crossings always; equator crossing, apsis extremes and
declination extremes behind `showAdvancedAstronomy` (the trend state is also
only updated there, exactly as in the source). -/
def lunarStep (rm : RMath) (s : Settings) (tz : ℤ) (dateMs : ℚ)
    (st : LunarState) (i : ℕ) : LunarState :=
  let t := dateMs + (i : ℚ) * 3600000
  let currPos := getMoonFullPos rm t 0
  let prevPos := st.prevPos
  let evNode : List Ev :=
    if signQ prevPos.lat ≠ signQ currPos.lat then
      [plainEv (lunarCrossTime dateMs i prevPos.lat currPos.lat)
        (formatTimeList s.use24HourFormat tz (lunarCrossTime dateMs i prevPos.lat currPos.lat) ++
          (if prevPos.lat < 0 then (" ☽ **at ☊** (Ascending Node)".toList)
           else (" ☽ **at ☋** (Descending Node)".toList)))]
    else []
  if s.showAdvancedAstronomy = true then
    let evEq : List Ev :=
      if signQ prevPos.dec ≠ signQ currPos.dec then
        [plainEv (lunarCrossTime dateMs i prevPos.dec currPos.dec)
          (formatTimeList s.use24HourFormat tz (lunarCrossTime dateMs i prevPos.dec currPos.dec) ++
            (" ☽ **on Eq.** (Crosses Equator)".toList))]
      else []
    let currDistTrend := signQ (currPos.dist - prevPos.dist)
    let evDist : List Ev :=
      if st.distTrend ≠ 0 ∧ currDistTrend ≠ st.distTrend then
        (if st.distTrend < 0 then
          [plainEv t (formatTimeList s.use24HourFormat tz t ++ (" ☽ **at Perig.** (Closest)".toList))]
        else
          [plainEv t (formatTimeList s.use24HourFormat tz t ++ (" ☽ **at Apo.** (Furthest)".toList))])
      else []
    let currDecTrend := signQ (currPos.dec - prevPos.dec)
    let evDec : List Ev :=
      if st.decTrend ≠ 0 ∧ currDecTrend ≠ st.decTrend then
        (if 18 < |currPos.dec| then
          (if 0 < st.decTrend then
            [plainEv t (formatTimeList s.use24HourFormat tz t ++ (" ☽ **runs High**".toList))]
          else
            [plainEv t (formatTimeList s.use24HourFormat tz t ++ (" ☽ **runs Low**".toList))])
        else [])
      else []
    { prevPos := currPos, distTrend := currDistTrend, decTrend := currDecTrend,
      events := st.events ++ evNode ++ evEq ++ evDist ++ evDec }
  else
    { prevPos := currPos, distTrend := st.distTrend, decTrend := st.decTrend,
      events := st.events ++ evNode }

/-- The JS-`Map` deduplication `uniqueEvents.set(e.text, e)`: a later event
with the same text replaces the stored value, keeping first-insertion
order. -/
def mapInsert (acc : List Ev) (e : Ev) : List Ev :=
  if acc.any (fun x => decide (x.text = e.text)) then
    acc.map (fun x => if x.text = e.text then e else x)
  else acc ++ [e]

def dedupByText (es : List Ev) : List Ev := es.foldl mapInsert []

/-- `getLunarEvents` (lines 360-420). -/
def getLunarEvents (rm : RMath) (s : Settings) (tz : ℤ) (dateMs : ℚ) : List Ev :=
  let init : LunarState :=
    { prevPos := getMoonFullPos rm dateMs 0, distTrend := 0, decTrend := 0, events := [] }
  dedupByText ((((List.range 24).map (fun n => n + 1)).foldl (lunarStep rm s tz dateMs) init).events)

/-- A row of the `bodies` table of `getPlanetaryEvents`. -/
structure BodyT where
  idc : List Char
  name : List Char
  symbol : List Char

def baseBodies : List BodyT :=
  [⟨"sun".toList, "Sun".toList, "☉".toList⟩,
   ⟨"mercury".toList, "Mercury".toList, "☿".toList⟩,
   ⟨"venus".toList, "Venus".toList, "♀".toList⟩,
   ⟨"mars".toList, "Mars".toList, "♂".toList⟩,
   ⟨"jupiter".toList, "Jupiter".toList, "♃".toList⟩,
   ⟨"saturn".toList, "Saturn".toList, "♄".toList⟩,
   ⟨"uranus".toList, "Uranus".toList, "♅".toList⟩,
   ⟨"neptune".toList, "Neptune".toList, "♆".toList⟩]

def bodiesFor (s : Settings) : List BodyT :=
  baseBodies ++
    (if s.showDeepAstrology = true then
      [⟨"pluto".toList, "Pluto".toList, "♇".toList⟩,
       ⟨"chiron".toList, "Chiron".toList, "⚷".toList⟩,
       ⟨"node".toList, "Node".toList, "☊".toList⟩]
    else [])

/-- The `if (v1 < -180) v1 += 360; if (v1 > 180) v1 -= 360;` wrap (single
conditionals, not loops, in the source). -/
def adj360 (v : ℚ) : ℚ :=
  let v1 := if v < -180 then v + 360 else v
  if 180 < v1 then v1 - 360 else v1

/-- The stationary-point check of the first loop of `getPlanetaryEvents`
(lines 453-467): three daily samples, sign change of the wrapped first
differences, noise floor `|v1| > 0.0001`, pushed at local noon of the day.
The stationary text carries no time prefix. -/
def statEvents (rm : RMath) (s : Settings) (utcMid prevDay nextDay : ℚ)
    (b : BodyT) : List Ev :=
  if s.showRetrogrades = true ∧ b.idc ≠ ("node".toList) ∧ b.idc ≠ ("sun".toList) then
    if signQ (adj360 (getBodyLongitude rm utcMid b.idc - getBodyLongitude rm prevDay b.idc)) ≠
        signQ (adj360 (getBodyLongitude rm nextDay b.idc - getBodyLongitude rm utcMid b.idc)) ∧
        0.0001 < |adj360 (getBodyLongitude rm utcMid b.idc - getBodyLongitude rm prevDay b.idc)| then
      [plainEv (utcMid + 12 * 3600000)
        (b.symbol ++ (" **stat.** (".toList) ++ b.name ++ (" Stationary)".toList))]
    else []
  else []

def upairs {α : Type} : List α → List (α × α)
  | [] => []
  | x :: xs => xs.map (fun y => (x, y)) ++ upairs xs

/-- `getPlanetaryEvents` (lines 422-492): stationary checks, then Moon-vs-body
aspects (with the Moon-Node flag at the node pseudo-body), then the
planet-vs-planet double loop with its uranus/neptune and node skips. -/
def getPlanetaryEvents (rm : RMath) (s : Settings) (tz : ℤ) (dateMs : ℚ) : List Ev :=
  let startDay := msUTCmidnight dateMs
  let endDay := startDay + 86399999
  let prevDay := startDay - 86400000
  let nextDay := endDay + 86400000
  let bs := bodiesFor s
  let posS := fun (b : BodyT) => getBodyLongitude rm startDay b.idc
  let posE := fun (b : BodyT) => getBodyLongitude rm endDay b.idc
  let moonStart := (getMoonFullPos rm startDay 0).lon
  let moonEnd := (getMoonFullPos rm endDay 0).lon
  (bs.map (statEvents rm s startDay prevDay nextDay)).flatten ++
  (bs.map (fun b =>
    checkAspects s tz ("Moon".toList) ("☾".toList) moonStart moonEnd b.name b.symbol
      (posS b) (posE b) startDay (decide (b.idc = ("node".toList))))).flatten ++
  ((upairs bs).map (fun p =>
    if (p.1.idc = ("uranus".toList) ∧ p.2.idc = ("neptune".toList)) ∨
        ((p.1.idc = ("node".toList) ∨ p.2.idc = ("node".toList)) ∧ ¬s.showDeepAstrology = true) then
      []
    else
      checkAspects s tz p.1.name p.1.symbol (posS p.1) (posE p.1) p.2.name p.2.symbol
        (posS p.2) (posE p.2) startDay false)).flatten

/-- The comparator of `rawEvents.sort((a, b) => a.timeMs - b.timeMs)`. -/
def evLE (a b : Ev) : Prop := a.timeMs ≤ b.timeMs

instance : DecidableRel evLE := fun a b =>
  inferInstanceAs (Decidable (a.timeMs ≤ b.timeMs))

instance : IsTotal Ev evLE := ⟨fun a b => le_total a.timeMs b.timeMs⟩

instance : IsTrans Ev evLE := ⟨fun _ _ _ h1 h2 => le_trans h1 h2⟩

def rawEvents (rm : RMath) (s : Settings) (tz : ℤ) (date : JSDate) : List Ev :=
  let startDay := msUTCmidnight date.ms
  getLunarEvents rm s tz startDay ++ getPlanetaryEvents rm s tz startDay

/-- The numeric-comparator sort of the collected day events (modelled with
insertion sort: any comparison sort realises the contract of `Array#sort`
with `(a, b) => a.timeMs - b.timeMs`). -/
def sortedEvents (rm : RMath) (s : Settings) (tz : ℤ) (date : JSDate) : List Ev :=
  List.insertionSort evLE (rawEvents rm s tz date)

def meteorItems (date : JSDate) : List (List Char) :=
  match getMeteorShower date with
  | some m => [("🌠 **Meteor Shower:** ".toList) ++ m]
  | none => []

/-- `CelestialEventsProvider.getDataForDate` (lines 313-341): collect lunar
and planetary events, sort them by instant, render the texts, then append the
meteor-shower line. -/
def getDataForDate (rm : RMath) (s : Settings) (tz : ℤ) (date : JSDate) :
    List (List Char) :=
  if s.enableCelestialEvents = true then
    (sortedEvents rm s tz date).map Ev.text ++ meteorItems date
  else []

/-! ## Deduplication properties -/

theorem mapInsert_mem {acc : List Ev} {e x : Ev} (h : x ∈ mapInsert acc e) :
    x ∈ acc ∨ x = e := by
  unfold mapInsert at h
  split at h
  · rcases List.mem_map.mp h with ⟨y, hy, hxy⟩
    by_cases hc : y.text = e.text
    · rw [if_pos hc] at hxy
      exact Or.inr hxy.symm
    · rw [if_neg hc] at hxy
      exact Or.inl (hxy ▸ hy)
  · rcases List.mem_append.mp h with h | h
    · exact Or.inl h
    · exact Or.inr (List.mem_singleton.mp h)

theorem mapInsert_texts_nodup {acc : List Ev} (e : Ev)
    (h : (acc.map Ev.text).Nodup) : ((mapInsert acc e).map Ev.text).Nodup := by
  unfold mapInsert
  split
  · have : (acc.map (fun x => if x.text = e.text then e else x)).map Ev.text =
        acc.map Ev.text := by
      rw [List.map_map]
      refine List.map_congr_left ?_
      intro x _
      by_cases hc : x.text = e.text
      · simp only [Function.comp]
        rw [if_pos hc, hc]
      · simp only [Function.comp]
        rw [if_neg hc]
    rw [this]
    exact h
  · rename_i hany
    rw [List.map_append]
    rw [List.nodup_append]
    refine ⟨h, List.nodup_singleton _, ?_⟩
    intro t ht
    rcases List.mem_map.mp ht with ⟨x, hx, rfl⟩
    intro hmem
    rcases List.mem_singleton.mp (by simpa using hmem) with hts
    exact hany (List.any_eq_true.mpr ⟨x, hx, by rw [decide_eq_true_iff]; exact hts⟩)

theorem dedupByText_texts_nodup (es : List Ev) :
    ((dedupByText es).map Ev.text).Nodup := by
  unfold dedupByText
  suffices h : ∀ acc : List Ev, (acc.map Ev.text).Nodup →
      ((es.foldl mapInsert acc).map Ev.text).Nodup by
    exact h [] (by simp)
  induction es with
  | nil => intro acc ha; simpa using ha
  | cons e es ih =>
      intro acc ha
      exact ih (mapInsert acc e) (mapInsert_texts_nodup e ha)

theorem dedupByText_subset {es : List Ev} {x : Ev} (h : x ∈ dedupByText es) :
    x ∈ es := by
  unfold dedupByText at h
  suffices hgen : ∀ (l : List Ev) (acc : List Ev), x ∈ l.foldl mapInsert acc →
      x ∈ acc ∨ x ∈ l by
    rcases hgen es [] h with hc | hc
    · exact absurd hc (List.not_mem_nil x)
    · exact hc
  intro l
  induction l with
  | nil => intro acc h; exact Or.inl h
  | cons e es ih =>
      intro acc h
      rcases ih (mapInsert acc e) h with hc | hc
      · rcases mapInsert_mem hc with hc | hc
        · exact Or.inl hc
        · exact Or.inr (by rw [hc]; exact List.mem_cons_self e es)
      · exact Or.inr (List.mem_cons_of_mem e hc)

/-! ## Text-shape machinery for the duplicate-freedom proof -/

/-- The event text is an all-time-character prefix (its formatted time stamp,
possibly empty) followed by a fixed core. -/
def EvShaped (e : Ev) (core : List Char) : Prop :=
  ∃ p, e.text = p ++ core ∧ ∀ c ∈ p, isTimeChar c = true

/-- A core that starts with a character no time stamp contains. -/
def goodCore (core : List Char) : Prop :=
  ∃ h t, core = h :: t ∧ isTimeChar h = false

theorem shaped_text_eq {e1 e2 : Ev} {c1 c2 : List Char}
    (h1 : EvShaped e1 c1) (h2 : EvShaped e2 c2)
    (g1 : goodCore c1) (g2 : goodCore c2)
    (ht : e1.text = e2.text) : c1 = c2 := by
  obtain ⟨p1, hp1, hq1⟩ := h1
  obtain ⟨p2, hp2, hq2⟩ := h2
  obtain ⟨a, t1, rfl, ha⟩ := g1
  obtain ⟨b, t2, rfl, hb⟩ := g2
  have : p1 ++ a :: t1 = p2 ++ b :: t2 := by
    rw [← hp1, ← hp2, ht]
  obtain ⟨_, rfl, rfl⟩ := split_time_core hq1 hq2 ha hb this
  rfl

/-- A slot: the (at most one, apart from the deduplicated lunar scan) events
pushed by one syntactic push site, together with that site's text core. -/
structure SlotC where
  evs : List Ev
  core : List Char

theorem nodup_join_slots (slots : List SlotC)
    (hshape : ∀ sl ∈ slots, ∀ e ∈ sl.evs, EvShaped e sl.core)
    (hgood : ∀ sl ∈ slots, goodCore sl.core)
    (hlen : ∀ sl ∈ slots, sl.evs.length ≤ 1)
    (hcores : (slots.map SlotC.core).Nodup) :
    (((slots.map SlotC.evs).flatten).map Ev.text).Nodup := by
  induction slots with
  | nil => simp
  | cons sl rest ih =>
      simp only [List.map_cons, List.flatten_cons, List.map_append, List.nodup_append]
      refine ⟨?_, ?_, ?_⟩
      · rcases hl : sl.evs with _ | ⟨e, tail⟩
        · simp
        · have := hlen sl (List.mem_cons_self sl rest)
          rw [hl] at this
          have htail : tail = [] := by
            cases tail with
            | nil => rfl
            | cons a b => simp at this
          rw [htail]
          simp
      · refine ih ?_ ?_ ?_ ?_
        · intro s hs e he; exact hshape s (List.mem_cons_of_mem sl hs) e he
        · intro s hs; exact hgood s (List.mem_cons_of_mem sl hs)
        · intro s hs; exact hlen s (List.mem_cons_of_mem sl hs)
        · exact (List.nodup_cons.mp hcores).2
      · intro t htl hmem
        rcases List.mem_map.mp htl with ⟨e, he, rfl⟩
        rcases List.mem_map.mp hmem with ⟨e', he', hee⟩
        rcases List.mem_flatten.mp he' with ⟨evl, hevl, he'mem⟩
        rcases List.mem_map.mp hevl with ⟨sl', hsl', rfl⟩
        have hs1 := hshape sl (List.mem_cons_self sl rest) e he
        have hs2 := hshape sl' (List.mem_cons_of_mem sl hsl') e' he'mem
        have hceq : sl.core = sl'.core :=
          shaped_text_eq hs1 hs2 (hgood sl (List.mem_cons_self sl rest))
            (hgood sl' (List.mem_cons_of_mem sl hsl')) hee.symm
        have hnc := (List.nodup_cons.mp hcores).1
        exact hnc (hceq ▸ List.mem_map_of_mem SlotC.core hsl')

/-- For the aspect angles of the table other than 0/180 (all in `[30, 144]`),
the positive-angle and the negative-angle test cannot both detect a crossing
on the same day: their normalised offsets would have to differ by `2t` modulo
360 while both lie in `(-20, 20)`. -/
theorem both_branches_impossible {D t : ℚ} (h30 : 30 ≤ t) (h144 : t ≤ 144)
    (h1 : |norm180 (D - t)| < 20) (h2 : |norm180 (D - -t)| < 20) : False := by
  obtain ⟨k1, hk1⟩ := norm180_congr (D - t)
  obtain ⟨k2, hk2⟩ := norm180_congr (D - -t)
  have hdiff : norm180 (D - -t) - norm180 (D - t) = 2 * t - 360 * ((k2 : ℚ) - k1) := by
    rw [hk1, hk2]
    push_cast
    ring
  have habs : |norm180 (D - -t) - norm180 (D - t)| < 40 := by
    rcases abs_lt.mp h1 with ⟨ha1, ha2⟩
    rcases abs_lt.mp h2 with ⟨hb1, hb2⟩
    rw [abs_lt]
    constructor <;> linarith
  rw [hdiff] at habs
  rcases abs_lt.mp habs with ⟨hlo, hhi⟩
  rcases le_or_lt (k2 - k1) 0 with hk | hk
  · have hc : ((k2 : ℚ) - k1) ≤ 0 := by
      have : ((k2 - k1 : ℤ) : ℚ) ≤ 0 := by exact_mod_cast hk
      push_cast at this
      linarith
    nlinarith
  · have h1' : (1 : ℤ) ≤ k2 - k1 := hk
    have hc : (1 : ℚ) ≤ (k2 : ℚ) - k1 := by
      have : (1 : ℚ) ≤ ((k2 - k1 : ℤ) : ℚ) := by exact_mod_cast h1'
      push_cast at this
      linarith
    nlinarith

theorem ccAt_len (s : Settings) (tz : ℤ) (n1 y1 : List Char) (s1 e1 : ℚ)
    (n2 y2 : List Char) (s2 e2 T : ℚ) (m : Bool) {t : ℚ}
    (ht : (t = 0 ∨ t = 180) ∨ (30 ≤ t ∧ t ≤ 144)) (symbol label : List Char) :
    (ccAt s tz n1 y1 s1 e1 n2 y2 s2 e2 T m t symbol label).length ≤ 1 := by
  unfold ccAt crossingEvents
  split
  · simp
  · rcases ht with ht | ⟨ha, hb⟩
    · rw [if_neg (by push_neg; intro h0; rcases ht with h | h; exact absurd h h0; exact h)]
      rw [List.append_nil]
      unfold branchOut
      split <;> simp
    · rw [if_pos ⟨by intro h; rw [h] at ha; linarith, by intro h; rw [h] at hb; linarith⟩]
      by_cases hm : detects (norm180 (s1 - s2 - t)) (norm180 (e1 - e2 - t))
      · by_cases hn : detects (norm180 (s1 - s2 - -t)) (norm180 (e1 - e2 - -t))
        · exact (both_branches_impossible ha hb (detects_bound_fst hm)
            (detects_bound_fst hn)).elim
        · unfold branchOut
          rw [if_pos hm, if_neg hn]
          simp
      · unfold branchOut
        rw [if_neg hm]
        split <;> simp

/-! ## Core decomposition of the rendered texts -/

def pairTail (y1 y2 n1 n2 : List Char) : List Char :=
  y1 ++ [' '] ++ y2 ++ (" (".toList) ++ n1 ++ (" & ".toList) ++ n2 ++ [')']

def labelPrefix (symbol label : List Char) : List Char :=
  symbol ++ (" **".toList) ++ label ++ (":** ".toList)

def aspectCore (symbol label y1 y2 n1 n2 : List Char) : List Char :=
  labelPrefix symbol label ++ pairTail y1 y2 n1 n2

theorem aspectText_decomp (use24 : Bool) (tz : ℤ) (ms : ℚ)
    (symbol label y1 y2 n1 n2 : List Char) :
    aspectText use24 tz ms symbol label y1 y2 n1 n2 =
      (formatTimeList use24 tz ms ++ [' ']) ++ aspectCore symbol label y1 y2 n1 n2 := by
  unfold aspectText aspectCore labelPrefix pairTail
  simp [List.append_assoc]

theorem fmt_space_time (use24 : Bool) (tz : ℤ) (ms : ℚ) :
    ∀ c ∈ formatTimeList use24 tz ms ++ [' '], isTimeChar c = true := by
  intro c hc
  rcases List.mem_append.mp hc with h | h
  · exact formatTimeList_time use24 tz ms c h
  · rw [List.mem_singleton.mp h]
    decide

theorem ccAt_shaped (s : Settings) (tz : ℤ) (n1 y1 : List Char) (s1 e1 : ℚ)
    (n2 y2 : List Char) (s2 e2 T : ℚ) (m : Bool) (t : ℚ) (symbol label : List Char) :
    ∀ e ∈ ccAt s tz n1 y1 s1 e1 n2 y2 s2 e2 T m t symbol label,
      EvShaped e (aspectCore symbol label y1 y2 n1 n2) := by
  intro e he
  unfold ccAt crossingEvents branchOut at he
  split at he
  · exact absurd he (List.not_mem_nil e)
  · have hsh : ∀ d1 d2 : ℚ,
        e = aspectEv s.use24HourFormat tz y1 y2 n1 n2 T d1 d2 t symbol label →
        EvShaped e (aspectCore symbol label y1 y2 n1 n2) := by
      intro d1 d2 hdef
      refine ⟨formatTimeList s.use24HourFormat tz
        (T + ((0 - d1) / (d2 - d1)) * 86400000) ++ [' '], ?_, fmt_space_time _ _ _⟩
      rw [hdef]
      unfold aspectEv
      exact aspectText_decomp _ _ _ _ _ _ _ _ _
    rcases List.mem_append.mp he with h | h
    · split at h
      · exact hsh _ _ (List.mem_singleton.mp h)
      · exact absurd h (List.not_mem_nil e)
    · split at h
      · split at h
        · exact hsh _ _ (List.mem_singleton.mp h)
        · exact absurd h (List.not_mem_nil e)
      · exact absurd h (List.not_mem_nil e)

theorem aspectCore_good {symbol : List Char} {c : Char} {cs : List Char}
    (hsym : symbol = c :: cs) (hc : isTimeChar c = false)
    (label y1 y2 n1 n2 : List Char) :
    goodCore (aspectCore symbol label y1 y2 n1 n2) := by
  refine ⟨c, cs ++ ((" **".toList) ++ label ++ (":** ".toList)) ++ pairTail y1 y2 n1 n2, ?_, hc⟩
  unfold aspectCore labelPrefix
  rw [hsym]
  simp [List.append_assoc]

/-! ## The aspect-angle table as data -/

structure LabelT where
  angle : ℚ
  symbol : List Char
  label : List Char

def labelTable (s : Settings) : List LabelT :=
  [⟨0, "☌".toList, "Conjunction".toList⟩,
   ⟨180, "☍".toList, "Opposition".toList⟩] ++
  (if s.showAstrology = true ∨ s.showDeepAstrology = true then
    [⟨120, "△".toList, "Trine".toList⟩,
     ⟨90, "□".toList, "Square".toList⟩,
     ⟨60, "⚹".toList, "Sextile".toList⟩]
  else []) ++
  (if s.showDeepAstrology = true then
    [⟨30, "⚺".toList, "Semi-Sextile".toList⟩,
     ⟨45, "∠".toList, "Semi-Square".toList⟩,
     ⟨72, "⬠".toList, "Quintile".toList⟩,
     ⟨135, "⚼".toList, "Sesquiquadrate".toList⟩,
     ⟨144, "bQ".toList, "Bi-Quintile".toList⟩]
  else [])

theorem checkAspects_eq_label (s : Settings) (tz : ℤ) (n1 y1 : List Char)
    (s1 e1 : ℚ) (n2 y2 : List Char) (s2 e2 T : ℚ) (m : Bool) :
    checkAspects s tz n1 y1 s1 e1 n2 y2 s2 e2 T m =
      ((labelTable s).map (fun L =>
        ccAt s tz n1 y1 s1 e1 n2 y2 s2 e2 T m L.angle L.symbol L.label)).flatten := by
  unfold checkAspects labelTable
  by_cases h1 : s.showAstrology = true <;>
    by_cases h2 : s.showDeepAstrology = true <;>
      simp [h1, h2, List.flatten, List.append_assoc]

theorem labelTable_angle (s : Settings) :
    ∀ L ∈ labelTable s, (L.angle = 0 ∨ L.angle = 180) ∨ (30 ≤ L.angle ∧ L.angle ≤ 144) := by
  unfold labelTable
  intro L hL
  rcases List.mem_append.mp hL with h | h
  · rcases List.mem_append.mp h with h | h
    · rcases List.mem_cons.mp h with rfl | h
      · norm_num
      · rcases List.mem_singleton.mp h with rfl
        norm_num
    · split at h
      · rcases List.mem_cons.mp h with rfl | h
        · norm_num
        · rcases List.mem_cons.mp h with rfl | h
          · norm_num
          · rcases List.mem_singleton.mp h with rfl
            norm_num
      · exact absurd h (List.not_mem_nil L)
  · split at h
    · rcases List.mem_cons.mp h with rfl | h
      · norm_num
      · rcases List.mem_cons.mp h with rfl | h
        · norm_num
        · rcases List.mem_cons.mp h with rfl | h
          · norm_num
          · rcases List.mem_cons.mp h with rfl | h
            · norm_num
            · rcases List.mem_singleton.mp h with rfl
              norm_num
    · exact absurd h (List.not_mem_nil L)

/-- Head character of a label symbol (the symbols of the table are
nonempty; `' '` is a junk value for the impossible empty case). -/
def symHead (L : LabelT) : Char :=
  match L.symbol with
  | c :: _ => c
  | [] => ' '

theorem labelTable_sym_cons (s : Settings) :
    ∀ L ∈ labelTable s, ∃ cs, L.symbol = symHead L :: cs ∧ isTimeChar (symHead L) = false := by
  unfold labelTable
  intro L hL
  rcases List.mem_append.mp hL with h | h
  · rcases List.mem_append.mp h with h | h
    · rcases List.mem_cons.mp h with rfl | h
      · exact ⟨[], by decide, by decide⟩
      · rcases List.mem_singleton.mp h with rfl
        exact ⟨[], by decide, by decide⟩
    · split at h
      · rcases List.mem_cons.mp h with rfl | h
        · exact ⟨[], by decide, by decide⟩
        · rcases List.mem_cons.mp h with rfl | h
          · exact ⟨[], by decide, by decide⟩
          · rcases List.mem_singleton.mp h with rfl
            exact ⟨[], by decide, by decide⟩
      · exact absurd h (List.not_mem_nil L)
  · split at h
    · rcases List.mem_cons.mp h with rfl | h
      · exact ⟨[], by decide, by decide⟩
      · rcases List.mem_cons.mp h with rfl | h
        · exact ⟨[], by decide, by decide⟩
        · rcases List.mem_cons.mp h with rfl | h
          · exact ⟨[], by decide, by decide⟩
          · rcases List.mem_cons.mp h with rfl | h
            · exact ⟨[], by decide, by decide⟩
            · rcases List.mem_singleton.mp h with rfl
              exact ⟨['Q'], by decide, by decide⟩
    · exact absurd h (List.not_mem_nil L)

theorem labelTable_heads_nodup (s : Settings) :
    ((labelTable s).map symHead).Nodup := by
  unfold labelTable
  by_cases h1 : s.showAstrology = true <;>
    by_cases h2 : s.showDeepAstrology = true <;>
      simp only [h1, h2] <;> decide

/-! ## Pair signatures: the (names, symbols, positions) of one body pair -/

structure PairSig where
  n1 : List Char
  y1 : List Char
  s1 : ℚ
  e1 : ℚ
  n2 : List Char
  y2 : List Char
  s2 : ℚ
  e2 : ℚ
  mn : Bool

/-- The body-pair-specific suffix of an aspect core (independent of the
aspect angle). -/
def sigTail (g : PairSig) : List Char := pairTail g.y1 g.y2 g.n1 g.n2

def sigCore (L : LabelT) (g : PairSig) : List Char :=
  aspectCore L.symbol L.label g.y1 g.y2 g.n1 g.n2

theorem sigCore_eq (L : LabelT) (g : PairSig) :
    sigCore L g = labelPrefix L.symbol L.label ++ sigTail g := rfl

/-- The slots contributed by one `checkAspects` call (or by a skipped pair,
with empty event lists but the same cores). -/
def sigSlots (s : Settings) (tz : ℤ) (T : ℚ) (keep : Bool) (g : PairSig) :
    List SlotC :=
  (labelTable s).map (fun L =>
    ⟨if keep = true then
        ccAt s tz g.n1 g.y1 g.s1 g.e1 g.n2 g.y2 g.s2 g.e2 T g.mn L.angle L.symbol L.label
      else [],
     sigCore L g⟩)

theorem sigSlots_join_true (s : Settings) (tz : ℤ) (T : ℚ) (g : PairSig) :
    ((sigSlots s tz T true g).map SlotC.evs).flatten =
      checkAspects s tz g.n1 g.y1 g.s1 g.e1 g.n2 g.y2 g.s2 g.e2 T g.mn := by
  rw [checkAspects_eq_label]
  unfold sigSlots
  rw [List.map_map]
  rfl

theorem sigSlots_join_false (s : Settings) (tz : ℤ) (T : ℚ) (g : PairSig) :
    ((sigSlots s tz T false g).map SlotC.evs).flatten = [] := by
  unfold sigSlots
  rw [List.map_map]
  have : ((labelTable s).map (SlotC.evs ∘ fun L =>
      SlotC.mk (if false = true then
        ccAt s tz g.n1 g.y1 g.s1 g.e1 g.n2 g.y2 g.s2 g.e2 T g.mn L.angle L.symbol L.label
      else []) (sigCore L g))) = (labelTable s).map (fun _ => ([] : List Ev)) := by
    refine List.map_congr_left ?_
    intro L _
    rfl
  rw [this]
  induction labelTable s with
  | nil => rfl
  | cons a l ih => simpa using ih

theorem sigCore_head (L : LabelT) (g : PairSig) {cs : List Char}
    (hsym : L.symbol = symHead L :: cs) :
    (sigCore L g).head? = some (symHead L) := by
  unfold sigCore aspectCore labelPrefix
  rw [hsym]
  rfl

/-- Distinct label heads and distinct pair tails make every core of the
label × pair grid distinct. -/
theorem nodup_grid_cores (s : Settings) (sigs : List PairSig)
    (htails : (sigs.map sigTail).Nodup) :
    ((sigs.map (fun g => (labelTable s).map (fun L => sigCore L g))).flatten).Nodup := by
  induction sigs with
  | nil => simp
  | cons g rest ih =>
      rw [List.map_cons] at htails
      obtain ⟨hgmem, hgtails⟩ := List.nodup_cons.mp htails
      simp only [List.map_cons, List.flatten_cons]
      refine List.nodup_append.mpr ⟨?_, ih hgtails, ?_⟩
      · refine List.Nodup.of_map List.head? ?_
        rw [List.map_map]
        have heq : ((labelTable s).map (List.head? ∘ fun L => sigCore L g)) =
            (labelTable s).map (fun L => some (symHead L)) := by
          refine List.map_congr_left ?_
          intro L hL
          obtain ⟨cs, hsym, _⟩ := labelTable_sym_cons s L hL
          exact sigCore_head L g hsym
        rw [heq, show ((labelTable s).map (fun L => some (symHead L))) =
          ((labelTable s).map symHead).map some by rw [List.map_map]; rfl]
        exact (labelTable_heads_nodup s).map (fun _ _ h => Option.some.inj h)
      · intro c hc hmem
        rcases List.mem_map.mp hc with ⟨L, hL, rfl⟩
        rcases List.mem_flatten.mp hmem with ⟨row, hrow, hcrow⟩
        rcases List.mem_map.mp hrow with ⟨g', hg', rfl⟩
        rcases List.mem_map.mp hcrow with ⟨L', hL', hLL⟩
        obtain ⟨cs, hsym, _⟩ := labelTable_sym_cons s L hL
        obtain ⟨cs', hsym', _⟩ := labelTable_sym_cons s L' hL'
        have hhead : symHead L' = symHead L := by
          have h1 := sigCore_head L g hsym
          have h2 := sigCore_head L' g' hsym'
          have := congrArg List.head? hLL
          rw [h1, h2] at this
          exact Option.some.inj this
        have hLeq : L' = L :=
          List.inj_on_of_nodup_map (labelTable_heads_nodup s) hL' hL hhead
        rw [hLeq] at hLL
        rw [sigCore_eq, sigCore_eq] at hLL
        have htl : sigTail g' = sigTail g := List.append_cancel_left hLL
        exact hgmem (htl ▸ List.mem_map_of_mem sigTail hg')

/-! ## The slot decomposition of `getPlanetaryEvents` -/

def statCore (b : BodyT) : List Char :=
  b.symbol ++ (" **stat.** (".toList) ++ b.name ++ (" Stationary)".toList)

def statSlot (rm : RMath) (s : Settings) (utcMid prevDay nextDay : ℚ)
    (b : BodyT) : SlotC :=
  ⟨statEvents rm s utcMid prevDay nextDay b, statCore b⟩

def moonSig (rm : RMath) (startDay endDay : ℚ) (b : BodyT) : PairSig :=
  ⟨"Moon".toList, "☾".toList,
   (getMoonFullPos rm startDay 0).lon, (getMoonFullPos rm endDay 0).lon,
   b.name, b.symbol,
   getBodyLongitude rm startDay b.idc, getBodyLongitude rm endDay b.idc,
   decide (b.idc = ("node".toList))⟩

def pairSig (rm : RMath) (startDay endDay : ℚ) (p : BodyT × BodyT) : PairSig :=
  ⟨p.1.name, p.1.symbol,
   getBodyLongitude rm startDay p.1.idc, getBodyLongitude rm endDay p.1.idc,
   p.2.name, p.2.symbol,
   getBodyLongitude rm startDay p.2.idc, getBodyLongitude rm endDay p.2.idc,
   false⟩

def pairKeep (s : Settings) (p : BodyT × BodyT) : Bool :=
  !(decide ((p.1.idc = ("uranus".toList) ∧ p.2.idc = ("neptune".toList)) ∨
    ((p.1.idc = ("node".toList) ∨ p.2.idc = ("node".toList)) ∧
      ¬s.showDeepAstrology = true)))

def planetSlots (rm : RMath) (s : Settings) (tz : ℤ) (dateMs : ℚ) : List SlotC :=
  ((bodiesFor s).map (statSlot rm s (msUTCmidnight dateMs)
    (msUTCmidnight dateMs - 86400000) (msUTCmidnight dateMs + 86399999 + 86400000))) ++
  (((bodiesFor s).map (fun b => sigSlots s tz (msUTCmidnight dateMs) true
    (moonSig rm (msUTCmidnight dateMs) (msUTCmidnight dateMs + 86399999) b))).flatten) ++
  (((upairs (bodiesFor s)).map (fun p => sigSlots s tz (msUTCmidnight dateMs)
    (pairKeep s p)
    (pairSig rm (msUTCmidnight dateMs) (msUTCmidnight dateMs + 86399999) p))).flatten)

theorem getPlanetaryEvents_eq_slots (rm : RMath) (s : Settings) (tz : ℤ) (dateMs : ℚ) :
    getPlanetaryEvents rm s tz dateMs =
      ((planetSlots rm s tz dateMs).map SlotC.evs).flatten := by
  unfold getPlanetaryEvents planetSlots
  simp only [List.map_append, List.flatten_append]
  congr 1
  · congr 1
    · rw [List.map_map]
      rfl
    · rw [List.map_flatten, List.map_map, List.flatten_flatten, List.map_map]
      congr 1
      refine List.map_congr_left ?_
      intro b _
      exact (sigSlots_join_true s tz (msUTCmidnight dateMs)
        (moonSig rm (msUTCmidnight dateMs) (msUTCmidnight dateMs + 86399999) b)).symm
  · rw [List.map_flatten, List.map_map, List.flatten_flatten, List.map_map]
    congr 1
    refine List.map_congr_left ?_
    intro p _
    simp only [Function.comp_apply]
    by_cases hC : (p.1.idc = ("uranus".toList) ∧ p.2.idc = ("neptune".toList)) ∨
        ((p.1.idc = ("node".toList) ∨ p.2.idc = ("node".toList)) ∧ ¬s.showDeepAstrology = true)
    · rw [if_pos hC]
      have hk : pairKeep s p = false := by
        unfold pairKeep
        rw [decide_eq_true hC]
        rfl
      rw [hk, sigSlots_join_false]
    · rw [if_neg hC]
      have hk : pairKeep s p = true := by
        unfold pairKeep
        rw [decide_eq_false hC]
        rfl
      rw [hk, sigSlots_join_true]
      rfl

/-! ## Distinctness of the planetary event texts -/

def bodyHead (b : BodyT) : Char :=
  match b.symbol with
  | c :: _ => c
  | [] => ' '

theorem bodiesFor_sym_cons (s : Settings) :
    ∀ b ∈ bodiesFor s, b.symbol = bodyHead b :: b.symbol.tail ∧
      isTimeChar (bodyHead b) = false := by
  unfold bodiesFor baseBodies
  rcases hD : s.showDeepAstrology <;> decide

theorem statCore_head (b : BodyT)
    (hsym : b.symbol = bodyHead b :: b.symbol.tail) :
    (statCore b).head? = some (bodyHead b) := by
  unfold statCore
  rw [hsym]
  rfl

theorem statCore_good (b : BodyT)
    (hsym : b.symbol = bodyHead b :: b.symbol.tail)
    (htc : isTimeChar (bodyHead b) = false) : goodCore (statCore b) := by
  refine ⟨bodyHead b, b.symbol.tail ++ ((" **stat.** (".toList) ++ b.name ++
    (" Stationary)".toList)), ?_, htc⟩
  unfold statCore
  rw [hsym]
  simp [List.append_assoc]

theorem statCores_nodup (s : Settings) :
    (((bodiesFor s).map statCore)).Nodup := by
  unfold bodiesFor baseBodies
  rcases hD : s.showDeepAstrology <;> decide

theorem stat_sig_heads (s : Settings) :
    ∀ b ∈ bodiesFor s, ∀ L ∈ labelTable s, bodyHead b ≠ symHead L := by
  unfold bodiesFor baseBodies labelTable
  rcases hD : s.showDeepAstrology <;> rcases hA : s.showAstrology <;> decide

theorem statEvents_text (rm : RMath) (s : Settings) (utcMid prevDay nextDay : ℚ)
    (b : BodyT) : ∀ e ∈ statEvents rm s utcMid prevDay nextDay b,
      e.text = statCore b := by
  intro e he
  unfold statEvents at he
  split at he
  · split at he
    · rcases List.mem_singleton.mp he with rfl
      rfl
    · exact absurd he (List.not_mem_nil e)
  · exact absurd he (List.not_mem_nil e)

theorem statEvents_len (rm : RMath) (s : Settings) (utcMid prevDay nextDay : ℚ)
    (b : BodyT) : (statEvents rm s utcMid prevDay nextDay b).length ≤ 1 := by
  unfold statEvents
  split
  · split <;> simp
  · simp

theorem mem_sigSlots {s : Settings} {tz : ℤ} {T : ℚ} {keep : Bool} {g : PairSig}
    {sl : SlotC} (h : sl ∈ sigSlots s tz T keep g) :
    ∃ L ∈ labelTable s, sl = ⟨if keep = true then
      ccAt s tz g.n1 g.y1 g.s1 g.e1 g.n2 g.y2 g.s2 g.e2 T g.mn L.angle L.symbol L.label
    else [], sigCore L g⟩ := by
  unfold sigSlots at h
  rcases List.mem_map.mp h with ⟨L, hL, rfl⟩
  exact ⟨L, hL, rfl⟩

/-- Decomposed membership in `planetSlots`. -/
theorem mem_planetSlots {rm : RMath} {s : Settings} {tz : ℤ} {dateMs : ℚ}
    {sl : SlotC} (h : sl ∈ planetSlots rm s tz dateMs) :
    (∃ b ∈ bodiesFor s, sl = statSlot rm s (msUTCmidnight dateMs)
      (msUTCmidnight dateMs - 86400000) (msUTCmidnight dateMs + 86399999 + 86400000) b) ∨
    (∃ g keep, sl ∈ sigSlots s tz (msUTCmidnight dateMs) keep g) := by
  unfold planetSlots at h
  rcases List.mem_append.mp h with h | h
  · rcases List.mem_append.mp h with h | h
    · rcases List.mem_map.mp h with ⟨b, hb, rfl⟩
      exact Or.inl ⟨b, hb, rfl⟩
    · rcases List.mem_flatten.mp h with ⟨row, hrow, hmem⟩
      rcases List.mem_map.mp hrow with ⟨b, _, rfl⟩
      exact Or.inr ⟨_, _, hmem⟩
  · rcases List.mem_flatten.mp h with ⟨row, hrow, hmem⟩
    rcases List.mem_map.mp hrow with ⟨p, _, rfl⟩
    exact Or.inr ⟨_, _, hmem⟩

theorem planet_texts_nodup (rm : RMath) (s : Settings) (tz : ℤ) (dateMs : ℚ) :
    ((getPlanetaryEvents rm s tz dateMs).map Ev.text).Nodup := by
  rw [getPlanetaryEvents_eq_slots]
  refine nodup_join_slots _ ?_ ?_ ?_ ?_
  · -- shapes
    intro sl hsl e he
    rcases mem_planetSlots hsl with ⟨b, hb, rfl⟩ | ⟨g, keep, hmem⟩
    · have := statEvents_text rm s _ _ _ b e he
      exact ⟨[], by rw [this]; rfl, fun c hc => absurd hc (List.not_mem_nil c)⟩
    · rcases mem_sigSlots hmem with ⟨L, hL, rfl⟩
      simp only at he
      split at he
      · exact ccAt_shaped s tz g.n1 g.y1 g.s1 g.e1 g.n2 g.y2 g.s2 g.e2 _ g.mn
          L.angle L.symbol L.label e he
      · exact absurd he (List.not_mem_nil e)
  · -- good cores
    intro sl hsl
    rcases mem_planetSlots hsl with ⟨b, hb, rfl⟩ | ⟨g, keep, hmem⟩
    · obtain ⟨hsym, htc⟩ := bodiesFor_sym_cons s b hb
      exact statCore_good b hsym htc
    · rcases mem_sigSlots hmem with ⟨L, hL, rfl⟩
      obtain ⟨cs, hsym, htc⟩ := labelTable_sym_cons s L hL
      exact aspectCore_good hsym htc L.label g.y1 g.y2 g.n1 g.n2
  · -- lengths
    intro sl hsl
    rcases mem_planetSlots hsl with ⟨b, hb, rfl⟩ | ⟨g, keep, hmem⟩
    · exact statEvents_len rm s _ _ _ b
    · rcases mem_sigSlots hmem with ⟨L, hL, rfl⟩
      simp only
      split
      · exact ccAt_len s tz g.n1 g.y1 g.s1 g.e1 g.n2 g.y2 g.s2 g.e2 _ g.mn
          (labelTable_angle s L hL) L.symbol L.label
      · simp
  · -- cores nodup
    unfold planetSlots
    simp only [List.map_append]
    have hstat : ((bodiesFor s).map (statSlot rm s (msUTCmidnight dateMs)
        (msUTCmidnight dateMs - 86400000)
        (msUTCmidnight dateMs + 86399999 + 86400000))).map SlotC.core =
        (bodiesFor s).map statCore := by
      rw [List.map_map]
      rfl
    have hmoon : (((bodiesFor s).map (fun b => sigSlots s tz (msUTCmidnight dateMs) true
        (moonSig rm (msUTCmidnight dateMs) (msUTCmidnight dateMs + 86399999) b))).flatten).map
          SlotC.core =
        (((bodiesFor s).map (fun b =>
          moonSig rm (msUTCmidnight dateMs) (msUTCmidnight dateMs + 86399999) b)).map
          (fun g => (labelTable s).map (fun L => sigCore L g))).flatten := by
      rw [List.map_flatten, List.map_map, List.map_map]
      congr 1
      refine List.map_congr_left ?_
      intro b _
      simp only [Function.comp_apply]
      unfold sigSlots
      rw [List.map_map]
      rfl
    have hpair : (((upairs (bodiesFor s)).map (fun p => sigSlots s tz (msUTCmidnight dateMs)
        (pairKeep s p)
        (pairSig rm (msUTCmidnight dateMs) (msUTCmidnight dateMs + 86399999) p))).flatten).map
          SlotC.core =
        (((upairs (bodiesFor s)).map (fun p =>
          pairSig rm (msUTCmidnight dateMs) (msUTCmidnight dateMs + 86399999) p)).map
          (fun g => (labelTable s).map (fun L => sigCore L g))).flatten := by
      rw [List.map_flatten, List.map_map, List.map_map]
      congr 1
      refine List.map_congr_left ?_
      intro p _
      simp only [Function.comp_apply]
      unfold sigSlots
      rw [List.map_map]
      rfl
    rw [hstat, hmoon, hpair, List.append_assoc]
    rw [show (((bodiesFor s).map (fun b =>
          moonSig rm (msUTCmidnight dateMs) (msUTCmidnight dateMs + 86399999) b)).map
          (fun g => (labelTable s).map (fun L => sigCore L g))).flatten ++
        (((upairs (bodiesFor s)).map (fun p =>
          pairSig rm (msUTCmidnight dateMs) (msUTCmidnight dateMs + 86399999) p)).map
          (fun g => (labelTable s).map (fun L => sigCore L g))).flatten =
        ((((bodiesFor s).map (fun b =>
          moonSig rm (msUTCmidnight dateMs) (msUTCmidnight dateMs + 86399999) b)) ++
          ((upairs (bodiesFor s)).map (fun p =>
          pairSig rm (msUTCmidnight dateMs) (msUTCmidnight dateMs + 86399999) p))).map
          (fun g => (labelTable s).map (fun L => sigCore L g))).flatten by
      rw [List.map_append, List.flatten_append]]
    refine List.nodup_append.mpr ⟨statCores_nodup s, ?_, ?_⟩
    · refine nodup_grid_cores s _ ?_
      rw [List.map_append, List.map_map, List.map_map]
      have h1 : (sigTail ∘ fun b : BodyT =>
          moonSig rm (msUTCmidnight dateMs) (msUTCmidnight dateMs + 86399999) b) =
          fun b : BodyT => pairTail ("☾".toList) b.symbol ("Moon".toList) b.name := rfl
      have h2 : (sigTail ∘ fun p : BodyT × BodyT =>
          pairSig rm (msUTCmidnight dateMs) (msUTCmidnight dateMs + 86399999) p) =
          fun p : BodyT × BodyT => pairTail p.1.symbol p.2.symbol p.1.name p.2.name := rfl
      rw [h1, h2]
      unfold bodiesFor baseBodies
      rcases hD : s.showDeepAstrology <;> decide
    · intro c hc hmem
      rcases List.mem_map.mp hc with ⟨b, hb, rfl⟩
      rcases List.mem_flatten.mp hmem with ⟨row, hrow, hcrow⟩
      rcases List.mem_map.mp hrow with ⟨g, _, rfl⟩
      rcases List.mem_map.mp hcrow with ⟨L, hL, hLL⟩
      obtain ⟨hsym, _⟩ := bodiesFor_sym_cons s b hb
      obtain ⟨cs, hsymL, _⟩ := labelTable_sym_cons s L hL
      have h1 := statCore_head b hsym
      have h2 := sigCore_head L g hsymL
      have := congrArg List.head? hLL
      rw [h1, h2] at this
      exact stat_sig_heads s b hb L hL (Option.some.inj this).symm

/-! ## Shapes of the lunar events and cross-group distinctness -/

def lunarCores : List (List Char) :=
  [("☽ **at ☊** (Ascending Node)".toList),
   ("☽ **at ☋** (Descending Node)".toList),
   ("☽ **on Eq.** (Crosses Equator)".toList),
   ("☽ **at Perig.** (Closest)".toList),
   ("☽ **at Apo.** (Furthest)".toList),
   ("☽ **runs High**".toList),
   ("☽ **runs Low**".toList)]

theorem lunarCores_head : ∀ core ∈ lunarCores, core = '☽' :: core.tail := by
  decide

/-- An event of the form `plainEv tm (formatted-time ++ ' ' :: core)` is
shaped with that core. -/
theorem lunar_ev_shaped (u : Bool) (tz : ℤ) (tm : ℚ) {lit core : List Char}
    (hlit : lit = ' ' :: core) :
    EvShaped (plainEv tm (formatTimeList u tz tm ++ lit)) core := by
  refine ⟨formatTimeList u tz tm ++ [' '], ?_, fmt_space_time u tz tm⟩
  show formatTimeList u tz tm ++ lit = formatTimeList u tz tm ++ [' '] ++ core
  rw [hlit, List.append_assoc]
  rfl

def LunarShaped (e : Ev) : Prop := ∃ core ∈ lunarCores, EvShaped e core

theorem lunarStep_inv (rm : RMath) (s : Settings) (tz : ℤ) (dateMs : ℚ)
    (st : LunarState) (i : ℕ) (hst : ∀ e ∈ st.events, LunarShaped e) :
    ∀ e ∈ (lunarStep rm s tz dateMs st i).events, LunarShaped e := by
  intro e he
  unfold lunarStep at he
  have hnode : ∀ tm : ℚ, ∀ cond : Prop, ∀ hc : Decidable cond,
      e = plainEv tm (formatTimeList s.use24HourFormat tz tm ++
        (if cond then (" ☽ **at ☊** (Ascending Node)".toList)
         else (" ☽ **at ☋** (Descending Node)".toList))) → LunarShaped e := by
    intro tm cond hc hdef
    subst hdef
    split
    · exact ⟨("☽ **at ☊** (Ascending Node)".toList), by decide,
        lunar_ev_shaped _ _ _ rfl⟩
    · exact ⟨("☽ **at ☋** (Descending Node)".toList), by decide,
        lunar_ev_shaped _ _ _ rfl⟩
  split at he
  · simp only [List.mem_append] at he
    rcases he with (((he | he) | he) | he) | he
    · exact hst e he
    · split at he
      · exact hnode _ _ _ (List.mem_singleton.mp he)
      · exact absurd he (List.not_mem_nil e)
    · split at he
      · rcases List.mem_singleton.mp he with rfl
        exact ⟨("☽ **on Eq.** (Crosses Equator)".toList), by decide,
          lunar_ev_shaped _ _ _ rfl⟩
      · exact absurd he (List.not_mem_nil e)
    · split at he
      · split at he
        · rcases List.mem_singleton.mp he with rfl
          exact ⟨("☽ **at Perig.** (Closest)".toList), by decide,
            lunar_ev_shaped _ _ _ rfl⟩
        · rcases List.mem_singleton.mp he with rfl
          exact ⟨("☽ **at Apo.** (Furthest)".toList), by decide,
            lunar_ev_shaped _ _ _ rfl⟩
      · exact absurd he (List.not_mem_nil e)
    · split at he
      · split at he
        · split at he
          · rcases List.mem_singleton.mp he with rfl
            exact ⟨("☽ **runs High**".toList), by decide,
              lunar_ev_shaped _ _ _ rfl⟩
          · rcases List.mem_singleton.mp he with rfl
            exact ⟨("☽ **runs Low**".toList), by decide,
              lunar_ev_shaped _ _ _ rfl⟩
        · exact absurd he (List.not_mem_nil e)
      · exact absurd he (List.not_mem_nil e)
  · simp only [List.mem_append] at he
    rcases he with he | he
    · exact hst e he
    · split at he
      · exact hnode _ _ _ (List.mem_singleton.mp he)
      · exact absurd he (List.not_mem_nil e)

theorem getLunarEvents_shaped (rm : RMath) (s : Settings) (tz : ℤ) (dateMs : ℚ) :
    ∀ e ∈ getLunarEvents rm s tz dateMs, LunarShaped e := by
  intro e he
  have hsub := dedupByText_subset he
  suffices h : ∀ (l : List ℕ) (st : LunarState), (∀ x ∈ st.events, LunarShaped x) →
      ∀ x ∈ (l.foldl (lunarStep rm s tz dateMs) st).events, LunarShaped x by
    exact h _ _ (fun x hx => absurd hx (List.not_mem_nil x)) e hsub
  intro l
  induction l with
  | nil => intro st hst x hx; exact hst x hx
  | cons i rest ih =>
      intro st hst x hx
      exact ih _ (lunarStep_inv rm s tz dateMs st i hst) x hx

theorem bodiesFor_head_ne (s : Settings) :
    ∀ b ∈ bodiesFor s, bodyHead b ≠ '☽' ∧ bodyHead b ≠ '🌠' := by
  unfold bodiesFor baseBodies
  rcases hD : s.showDeepAstrology <;> decide

theorem labelTable_head_ne (s : Settings) :
    ∀ L ∈ labelTable s, symHead L ≠ '☽' ∧ symHead L ≠ '🌠' := by
  unfold labelTable
  rcases hD : s.showDeepAstrology <;> rcases hA : s.showAstrology <;> decide

/-- Every planetary event is shaped on a core whose head character is a body
or aspect symbol: not a time character, not `'☽'`, not `'🌠'`. -/
theorem planet_ev_shaped (rm : RMath) (s : Settings) (tz : ℤ) (dateMs : ℚ) :
    ∀ e ∈ getPlanetaryEvents rm s tz dateMs, ∃ ch ct, EvShaped e (ch :: ct) ∧
      isTimeChar ch = false ∧ ch ≠ '☽' ∧ ch ≠ '🌠' := by
  rw [getPlanetaryEvents_eq_slots]
  intro e he
  rcases List.mem_flatten.mp he with ⟨evl, hevl, hee⟩
  rcases List.mem_map.mp hevl with ⟨sl, hsl, rfl⟩
  rcases mem_planetSlots hsl with ⟨b, hb, rfl⟩ | ⟨g, keep, hmem⟩
  · obtain ⟨hsym, htc⟩ := bodiesFor_sym_cons s b hb
    obtain ⟨hne1, hne2⟩ := bodiesFor_head_ne s b hb
    have htext := statEvents_text rm s _ _ _ b e hee
    refine ⟨bodyHead b, b.symbol.tail ++ ((" **stat.** (".toList) ++ b.name ++
      (" Stationary)".toList)), ⟨[], ?_, fun c hc => absurd hc (List.not_mem_nil c)⟩,
      htc, hne1, hne2⟩
    rw [htext]
    unfold statCore
    rw [hsym]
    simp [List.append_assoc]
  · rcases mem_sigSlots hmem with ⟨L, hL, rfl⟩
    simp only at hee
    obtain ⟨cs, hsymL, htcL⟩ := labelTable_sym_cons s L hL
    obtain ⟨hne1, hne2⟩ := labelTable_head_ne s L hL
    split at hee
    · have hsh := ccAt_shaped s tz g.n1 g.y1 g.s1 g.e1 g.n2 g.y2 g.s2 g.e2 _ g.mn
        L.angle L.symbol L.label e hee
      obtain ⟨p, hp, hq⟩ := hsh
      refine ⟨symHead L, cs ++ ((" **".toList) ++ L.label ++ (":** ".toList)) ++
        pairTail g.y1 g.y2 g.n1 g.n2, ⟨p, ?_, hq⟩, htcL, hne1, hne2⟩
      rw [hp]
      congr 1
      unfold aspectCore labelPrefix
      rw [hsymL]
      simp [List.append_assoc]
    · exact absurd hee (List.not_mem_nil e)

theorem lunar_head (e : Ev) (h : LunarShaped e) :
    ∃ ct, EvShaped e ('☽' :: ct) := by
  obtain ⟨core, hcore, hsh⟩ := h
  have := lunarCores_head core hcore
  exact ⟨core.tail, this ▸ hsh⟩

theorem shaped_ne_of_heads {e1 e2 : Ev} {c1 c2 : Char} {t1 t2 : List Char}
    (h1 : EvShaped e1 (c1 :: t1)) (h2 : EvShaped e2 (c2 :: t2))
    (g1 : isTimeChar c1 = false) (g2 : isTimeChar c2 = false)
    (hne : c1 ≠ c2) : e1.text ≠ e2.text := by
  intro ht
  have := shaped_text_eq h1 h2 ⟨c1, t1, rfl, g1⟩ ⟨c2, t2, rfl, g2⟩ ht
  exact hne (by injection this)

theorem lunar_planet_disjoint (rm : RMath) (s : Settings) (tz : ℤ) (dateMs : ℚ) :
    ∀ t ∈ (getLunarEvents rm s tz dateMs).map Ev.text,
      t ∉ (getPlanetaryEvents rm s tz dateMs).map Ev.text := by
  intro t htl htp
  rcases List.mem_map.mp htl with ⟨e, he, rfl⟩
  rcases List.mem_map.mp htp with ⟨e', he', hte⟩
  obtain ⟨ct, hsh⟩ := lunar_head e (getLunarEvents_shaped rm s tz dateMs e he)
  obtain ⟨ch, ct', hsh', htc', hne', _⟩ := planet_ev_shaped rm s tz dateMs e' he'
  exact shaped_ne_of_heads hsh hsh' (by decide) htc'
    (fun hc => hne' hc.symm) hte.symm

theorem rawEvents_texts_nodup (rm : RMath) (s : Settings) (tz : ℤ) (date : JSDate) :
    ((rawEvents rm s tz date).map Ev.text).Nodup := by
  unfold rawEvents
  rw [List.map_append]
  exact List.nodup_append.mpr ⟨dedupByText_texts_nodup _, planet_texts_nodup rm s tz _,
    lunar_planet_disjoint rm s tz _⟩

/-- Every raw event's text starts with a digit or a symbol character — never
with the meteor-shower glyph. -/
theorem rawEvents_not_meteor (rm : RMath) (s : Settings) (tz : ℤ) (date : JSDate) :
    ∀ e ∈ rawEvents rm s tz date, ∀ r : List Char, e.text ≠ '🌠' :: r := by
  intro e he r ht
  have hshape : ∃ ch ct, EvShaped e (ch :: ct) ∧ isTimeChar ch = false ∧ ch ≠ '🌠' := by
    unfold rawEvents at he
    rcases List.mem_append.mp he with he | he
    · obtain ⟨ct, hsh⟩ := lunar_head e (getLunarEvents_shaped rm s tz _ e he)
      exact ⟨'☽', ct, hsh, by decide, by decide⟩
    · obtain ⟨ch, ct, hsh, htc, _, hne⟩ := planet_ev_shaped rm s tz _ e he
      exact ⟨ch, ct, hsh, htc, hne⟩
  obtain ⟨ch, ct, ⟨p, hp, hq⟩, htc, hne⟩ := hshape
  rcases hpl : p with _ | ⟨c, p'⟩
  · rw [hpl] at hp
    simp only [List.nil_append] at hp
    rw [hp] at ht
    exact hne (by injection ht)
  · rw [hpl] at hp
    rw [hp] at ht
    have hct : c = '🌠' := by injection ht
    have := hq c (by rw [hpl]; exact List.mem_cons_self c p')
    rw [hct] at this
    exact absurd this (by decide)

/-- Claim C2: for every date and settings, the celestial-event list is the
sorted-by-instant event texts with the (date-only) meteor-shower entry
appended after them, and no two entries of the returned list have the same
text. -/
theorem celestial_sorted_nodup (rm : RMath) (s : Settings) (tz : ℤ) (date : JSDate) :
    List.Sorted evLE (sortedEvents rm s tz date) ∧
    getDataForDate rm s tz date =
      (if s.enableCelestialEvents = true then
        (sortedEvents rm s tz date).map Ev.text ++ meteorItems date
      else []) ∧
    (getDataForDate rm s tz date).Nodup := by
  refine ⟨List.sorted_insertionSort evLE _, rfl, ?_⟩
  unfold getDataForDate
  split
  · refine List.nodup_append.mpr ⟨?_, ?_, ?_⟩
    · have hperm : ((sortedEvents rm s tz date).map Ev.text).Perm
          ((rawEvents rm s tz date).map Ev.text) :=
        (List.perm_insertionSort evLE _).map Ev.text
      exact hperm.nodup_iff.mpr (rawEvents_texts_nodup rm s tz date)
    · unfold meteorItems
      split <;> simp
    · intro t htl htm
      rcases List.mem_map.mp htl with ⟨e, he, rfl⟩
      have heraw : e ∈ rawEvents rm s tz date :=
        (List.perm_insertionSort evLE _).mem_iff.mp he
      unfold meteorItems at htm
      rcases hms : getMeteorShower date with _ | m
      · rw [hms] at htm
        exact absurd htm (List.not_mem_nil _)
      · rw [hms] at htm
        rcases List.mem_singleton.mp htm with htx
        refine rawEvents_not_meteor rm s tz date e heraw
          ((" **Meteor Shower:** ".toList) ++ m) ?_
        rw [htx]
        rfl
  · exact List.nodup_nil

/-! ## MoonProvider: phase and constellation -/

/-- Degrees to radians (`degToRad` of the providers). -/
def degToRad (rm : RMath) (x : ℚ) : ℚ := x * rm.pi / 180

/-- Radians to degrees (`radToDeg` of the providers). -/
def radToDeg (rm : RMath) (x : ℚ) : ℚ := x * 180 / rm.pi

/-- Clamp to `[-1, 1]`. -/
def clampQ (x : ℚ) : ℚ := max (-1) (min 1 x)

/-- A concrete sample `Math` interface used to evaluate the embedded
routines on closed inputs: range-respecting rational stand-ins (their
numerical accuracy is irrelevant — only the surrounding exact code is at
stake, and it is verified for every `RMath`). -/
def demoRM : RMath where
  sin := fun x => clampQ x
  cos := fun x => clampQ (1 - x * x / 2)
  tan := fun x => x
  atan := fun x => x
  asin := fun x => x
  acos := fun _ => 2
  atan2 := fun y x => y - x
  sqrt := fun x => x
  pi := 3.14159

/-- The elongation normalisation of `calculatePhase` (lines 148-150):
`% 360` then a conditional `+ 360`. -/
def elongationOf (moonLon sunLon : ℚ) : ℚ :=
  if jsMod (moonLon - sunLon) 360 < 0 then jsMod (moonLon - sunLon) 360 + 360
  else jsMod (moonLon - sunLon) 360

/-- The illumination fraction `(1 - cos(elongation rad)) / 2` (line 152). -/
def phasePctOf (rm : RMath) (moonLon sunLon : ℚ) : ℚ :=
  (1 - rm.cos (elongationOf moonLon sunLon * (rm.pi / 180))) / 2

/-- The fixed phase table of `calculatePhase` (lines 155-164). -/
def phases : List (List Char × List Char) :=
  [(("New Moon".toList), ("🌑".toList)),
   (("Waxing Crescent".toList), ("🌒".toList)),
   (("First Quarter".toList), ("🌓".toList)),
   (("Waxing Gibbous".toList), ("🌔".toList)),
   (("Full Moon".toList), ("🌕".toList)),
   (("Waning Gibbous".toList), ("🌖".toList)),
   (("Third Quarter".toList), ("🌗".toList)),
   (("Waning Crescent".toList), ("🌘".toList))]

structure PhaseData where
  name : List Char
  emoji : List Char
  illumination : ℤ

/-- `MoonProvider.calculatePhase` (lines 147-171): the segment is
`round((elongation / 360) * 8) % 8` and indexes the table; the rendered
percentage is `round(phasePct * 100)`. -/
def calculatePhase (rm : RMath) (moonLon sunLon : ℚ) : PhaseData :=
  { name := (phases.getD ((jsRound (elongationOf moonLon sunLon / 360 * 8)) % 8).toNat
      ([], [])).1
    emoji := (phases.getD ((jsRound (elongationOf moonLon sunLon / 360 * 8)) % 8).toNat
      ([], [])).2
    illumination := jsRound (phasePctOf rm moonLon sunLon * 100) }

/-- The longitude normalisation of `getAstronomicalConstellation`
(lines 175-176). -/
def normLon (lon : ℚ) : ℚ :=
  if jsMod lon 360 < 0 then jsMod lon 360 + 360 else jsMod lon 360

/-- The rule chain of `getAstronomicalConstellation` (lines 179-199) on the
already-normalised longitude: four latitude-gated intruders, then the
13-entry zodiac chain, then the `Unknown` fallback. -/
def zodiacAt (l lat : ℚ) : List Char × List Char :=
  if 5 ≤ l ∧ l ≤ 25 ∧ lat < -3.5 then (("Cetus".toList), ("🐋".toList))
  else if 84 ≤ l ∧ l ≤ 91 ∧ lat < -0.5 then (("Orion".toList), ("🏹".toList))
  else if 80 ≤ l ∧ l ≤ 95 ∧ 4.5 < lat then (("Auriga".toList), ("🐐".toList))
  else if 143 ≤ l ∧ l ≤ 155 ∧ lat < -2.5 then (("Sextans".toList), ("🧭".toList))
  else if 351.5 ≤ l ∨ l < 29 then (("Pisces".toList), ("♓".toList))
  else if l < 53.5 then (("Aries".toList), ("♈".toList))
  else if l < 90 then (("Taurus".toList), ("♉".toList))
  else if l < 118 then (("Gemini".toList), ("♊".toList))
  else if l < 138 then (("Cancer".toList), ("♋".toList))
  else if l < 174 then (("Leo".toList), ("♌".toList))
  else if l < 218 then (("Virgo".toList), ("♍".toList))
  else if l < 241 then (("Libra".toList), ("♎".toList))
  else if l < 248 then (("Scorpius".toList), ("♏".toList))
  else if l < 266 then (("Ophiuchus".toList), ("⛎".toList))
  else if l < 299.5 then (("Sagittarius".toList), ("♐".toList))
  else if l < 327.5 then (("Capricornus".toList), ("♑".toList))
  else if l < 351.5 then (("Aquarius".toList), ("♒".toList))
  else (("Unknown".toList), ("✨".toList))

/-- `MoonProvider.getAstronomicalConstellation` (lines 174-200). -/
def getAstronomicalConstellation (lon lat : ℚ) : List Char × List Char :=
  zodiacAt (normLon lon) lat

theorem zodiacAt_ne_unknown (l : ℚ) :
    zodiacAt l 0 ≠ (("Unknown".toList), ("✨".toList)) := by
  intro hU
  unfold zodiacAt at hU
  rcases ite_eq_iff.mp hU with ⟨_, he⟩ | ⟨_, hU2⟩
  · exact absurd he (by decide)
  rcases ite_eq_iff.mp hU2 with ⟨_, he⟩ | ⟨_, hU3⟩
  · exact absurd he (by decide)
  rcases ite_eq_iff.mp hU3 with ⟨_, he⟩ | ⟨_, hU4⟩
  · exact absurd he (by decide)
  rcases ite_eq_iff.mp hU4 with ⟨_, he⟩ | ⟨_, hU5⟩
  · exact absurd he (by decide)
  rcases ite_eq_iff.mp hU5 with ⟨_, he⟩ | ⟨hn5, hU6⟩
  · exact absurd he (by decide)
  rcases ite_eq_iff.mp hU6 with ⟨_, he⟩ | ⟨_, hU7⟩
  · exact absurd he (by decide)
  rcases ite_eq_iff.mp hU7 with ⟨_, he⟩ | ⟨_, hU8⟩
  · exact absurd he (by decide)
  rcases ite_eq_iff.mp hU8 with ⟨_, he⟩ | ⟨_, hU9⟩
  · exact absurd he (by decide)
  rcases ite_eq_iff.mp hU9 with ⟨_, he⟩ | ⟨_, hU10⟩
  · exact absurd he (by decide)
  rcases ite_eq_iff.mp hU10 with ⟨_, he⟩ | ⟨_, hU11⟩
  · exact absurd he (by decide)
  rcases ite_eq_iff.mp hU11 with ⟨_, he⟩ | ⟨_, hU12⟩
  · exact absurd he (by decide)
  rcases ite_eq_iff.mp hU12 with ⟨_, he⟩ | ⟨_, hU13⟩
  · exact absurd he (by decide)
  rcases ite_eq_iff.mp hU13 with ⟨_, he⟩ | ⟨_, hU14⟩
  · exact absurd he (by decide)
  rcases ite_eq_iff.mp hU14 with ⟨_, he⟩ | ⟨_, hU15⟩
  · exact absurd he (by decide)
  rcases ite_eq_iff.mp hU15 with ⟨_, he⟩ | ⟨_, hU16⟩
  · exact absurd he (by decide)
  rcases ite_eq_iff.mp hU16 with ⟨_, he⟩ | ⟨_, hU17⟩
  · exact absurd he (by decide)
  rcases ite_eq_iff.mp hU17 with ⟨_, he⟩ | ⟨hn18, _⟩
  · exact absurd he (by decide)
  push_neg at hn5
  exact absurd hn5.1 hn18

/-- Claim C5: `calculatePhase` normalises the elongation into `[0, 360)`,
the illumination fraction `(1 - cos e)/2` lies in `[0, 1]` whenever the
cosine respects its range, and the phase name is chosen by nearest-bucket
rounding `round(elongation/45) mod 8` over the 8 fixed names. -/
theorem calculatePhase_spec (rm : RMath) (m s : ℚ)
    (hcos : ∀ x : ℚ, -1 ≤ rm.cos x ∧ rm.cos x ≤ 1) :
    (0 ≤ elongationOf m s ∧ elongationOf m s < 360) ∧
    (0 ≤ phasePctOf rm m s ∧ phasePctOf rm m s ≤ 1) ∧
    (calculatePhase rm m s).name =
      (phases.getD ((jsRound (elongationOf m s / 45)) % 8).toNat ([], [])).1 ∧
    phases.map Prod.fst =
      [("New Moon".toList), ("Waxing Crescent".toList), ("First Quarter".toList),
       ("Waxing Gibbous".toList), ("Full Moon".toList), ("Waning Gibbous".toList),
       ("Third Quarter".toList), ("Waning Crescent".toList)] := by
  obtain ⟨hb1, hb2⟩ := jsMod_bounds (m - s) (show (0:ℚ) < 360 by norm_num)
  refine ⟨?_, ?_, ?_, by decide⟩
  · unfold elongationOf
    split_ifs with h <;> constructor <;> linarith
  · obtain ⟨hc1, hc2⟩ := hcos (elongationOf m s * (rm.pi / 180))
    unfold phasePctOf
    constructor <;> linarith
  · have h45 : elongationOf m s / 360 * 8 = elongationOf m s / 45 := by ring
    show (phases.getD ((jsRound (elongationOf m s / 360 * 8)) % 8).toNat ([], [])).1 = _
    rw [h45]

theorem calculatePhase_spec_witness :
    (∀ x : ℚ, -1 ≤ demoRM.cos x ∧ demoRM.cos x ≤ 1) ∧
    ((0 ≤ elongationOf 100 40 ∧ elongationOf 100 40 < 360) ∧
     (0 ≤ phasePctOf demoRM 100 40 ∧ phasePctOf demoRM 100 40 ≤ 1) ∧
     (calculatePhase demoRM 100 40).name =
       (phases.getD ((jsRound (elongationOf 100 40 / 45)) % 8).toNat ([], [])).1 ∧
     phases.map Prod.fst =
       [("New Moon".toList), ("Waxing Crescent".toList), ("First Quarter".toList),
        ("Waxing Gibbous".toList), ("Full Moon".toList), ("Waning Gibbous".toList),
        ("Third Quarter".toList), ("Waning Crescent".toList)]) :=
  ⟨fun x => ⟨le_max_left _ _, max_le (by norm_num) (min_le_left _ _)⟩,
   calculatePhase_spec demoRM 100 40
     (fun x => ⟨le_max_left _ _, max_le (by norm_num) (min_le_left _ _)⟩)⟩

/-- Claim C6: on the 0.01°-resolution sweep of `[0°, 360°)` at latitude 0
the constellation classifier never falls through to `Unknown`, and a
longitude exactly at each declared boundary resolves to the constellation
on the greater-or-equal side. -/
theorem constellation_sweep (k : ℕ) (_hk : k < 36000) :
    getAstronomicalConstellation ((k : ℚ) / 100) 0 ≠ (("Unknown".toList), ("✨".toList)) ∧
    getAstronomicalConstellation 29 0 = (("Aries".toList), ("♈".toList)) ∧
    getAstronomicalConstellation 53.5 0 = (("Taurus".toList), ("♉".toList)) ∧
    getAstronomicalConstellation 90 0 = (("Gemini".toList), ("♊".toList)) ∧
    getAstronomicalConstellation 118 0 = (("Cancer".toList), ("♋".toList)) ∧
    getAstronomicalConstellation 138 0 = (("Leo".toList), ("♌".toList)) ∧
    getAstronomicalConstellation 174 0 = (("Virgo".toList), ("♍".toList)) ∧
    getAstronomicalConstellation 218 0 = (("Libra".toList), ("♎".toList)) ∧
    getAstronomicalConstellation 241 0 = (("Scorpius".toList), ("♏".toList)) ∧
    getAstronomicalConstellation 248 0 = (("Ophiuchus".toList), ("⛎".toList)) ∧
    getAstronomicalConstellation 266 0 = (("Sagittarius".toList), ("♐".toList)) ∧
    getAstronomicalConstellation 299.5 0 = (("Capricornus".toList), ("♑".toList)) ∧
    getAstronomicalConstellation 327.5 0 = (("Aquarius".toList), ("♒".toList)) ∧
    getAstronomicalConstellation 351.5 0 = (("Pisces".toList), ("♓".toList)) := by
  refine ⟨zodiacAt_ne_unknown _, ?_, ?_, ?_, ?_, ?_, ?_, ?_, ?_, ?_, ?_, ?_, ?_, ?_⟩ <;>
    · unfold getAstronomicalConstellation normLon jsMod truncQ zodiacAt
      norm_num

theorem constellation_sweep_witness :
    (2950 < 36000) ∧
    getAstronomicalConstellation (((2950 : ℕ) : ℚ) / 100) 0 ≠
      (("Unknown".toList), ("✨".toList)) :=
  ⟨by decide, (constellation_sweep 2950 (by decide)).1⟩

/-! ## The rise/set computations and their degenerate geometry -/

/-- `while (t < 0) t += 24;` (line 185 of `PlanetProvider.calcRiseSet`). -/
def wrapUp24 (x : ℚ) : ℚ :=
  if x < 0 then wrapUp24 (x + 24) else x
termination_by (⌈-x⌉).toNat
decreasing_by
  have h1 : (0 : ℤ) < ⌈-x⌉ := Int.lt_ceil.mpr (by push_cast; linarith)
  have h2 : ⌈-(x + 24)⌉ = ⌈-x⌉ - 24 := by
    rw [show -(x + 24) = -x + ((-24 : ℤ) : ℚ) by push_cast; ring, Int.ceil_add_int]
    ring
  omega

/-- `while (t >= 24) t -= 24;` (line 186 of `PlanetProvider.calcRiseSet`). -/
def wrapDown24 (x : ℚ) : ℚ :=
  if 24 ≤ x then wrapDown24 (x - 24) else x
termination_by (⌈x⌉).toNat
decreasing_by
  have h1 : (23 : ℤ) < ⌈x⌉ := Int.lt_ceil.mpr (by push_cast; linarith)
  have h2 : ⌈x - 24⌉ = ⌈x⌉ - 24 := by
    rw [show x - 24 = x + ((-24 : ℤ) : ℚ) by push_cast; ring, Int.ceil_add_int]
    ring
  omega

/-- The hour-angle cosine of `PlanetProvider.calcRiseSet` (lines 174-175):
`(sin h0 - sin lat · sin dec) / (cos lat · cos dec)` with `h0 = -0.5667°`. -/
def planetCosH (rm : RMath) (lat dec : ℚ) : ℚ :=
  (rm.sin (-0.5667 * (rm.pi / 180)) - rm.sin (lat * (rm.pi / 180)) * rm.sin dec) /
    (rm.cos (lat * (rm.pi / 180)) * rm.cos dec)

/-- The record `calcRiseSet` returns: two formatted instants and the two
`Date` values (absent on the degenerate branch). -/
structure RiseSet where
  rise : Option (List Char)
  set : Option (List Char)
  riseDate : Option ℚ
  setDate : Option ℚ
deriving DecidableEq

/-- `PlanetProvider.calcRiseSet` (lines 163-209).  `tzMin` is the fixed
local-UTC offset in minutes (the `formatTime`/`setDate` calls resolve the
host time zone; the embedding takes the offset as a parameter, so
`setDate.setDate(getDate() + 1)` is an 86400000 ms shift).  The GMST/transit
bindings of lines 165-172 are computed inside the only branch that reads
them. -/
def calcRiseSet (rm : RMath) (use24 : Bool) (tzMin : ℤ) (dateMs lat lng ra dec : ℚ) :
    RiseSet :=
  if 1 < planetCosH rm lat dec ∨ planetCosH rm lat dec < -1 then ⟨none, none, none, none⟩
  else
    let utcMidnight := msUTCmidnight dateMs
    let d0 := utcMidnight / 86400000 - 10957.5
    let T := d0 / 36525
    let GMST0 := jsMod (100.46061837 + 36000.770053608 * T) 360
    let GMST := if GMST0 < 0 then GMST0 + 360 else GMST0
    let H_deg := radToDeg rm (rm.acos (planetCosH rm lat dec))
    let RA_deg := jsMod (ra * 180 / rm.pi + 360) 360
    let transit := wrapDown24 (wrapUp24 ((RA_deg - lng - GMST) / 15.04107))
    let durationHalf := H_deg / 15.04107
    let rise0 := transit - durationHalf
    let set0 := transit + durationHalf
    let rise1 := if rise0 < 0 then rise0 + 24 else rise0
    let rise2 := if 24 ≤ rise1 then rise1 - 24 else rise1
    let set1 := if set0 < 0 then set0 + 24 else set0
    let set2 := if 24 ≤ set1 then set1 - 24 else set1
    let riseDate := utcMidnight + rise2 * 3600000
    let setDate0 := utcMidnight + set2 * 3600000
    let setDate := if setDate0 < riseDate then setDate0 + 86400000 else setDate0
    ⟨some (formatTimeList use24 tzMin riseDate), some (formatTimeList use24 tzMin setDate),
     some riseDate, some setDate⟩

/-- `t` of `SunProvider.calculateTime` (line 63). -/
def sunT (N lngHour : ℚ) (isSunrise : Bool) : ℚ :=
  N + ((if isSunrise then (6 : ℚ) else 18) - lngHour) / 24

/-- `M` of `SunProvider.calculateTime` (line 64). -/
def sunM (t : ℚ) : ℚ := 0.9856 * t - 3.289

/-- The sun's true longitude `L` with its wrap (lines 67-69). -/
def sunL (rm : RMath) (M : ℚ) : ℚ :=
  let L0 := M + 1.916 * rm.sin (degToRad rm M) + 0.020 * rm.sin (degToRad rm (2 * M))
    + 282.634
  if 360 < L0 then L0 - 360 else if L0 < 0 then L0 + 360 else L0

/-- Right ascension in hours, wrapped and quadrant-aligned (lines 72-80). -/
def sunRA (rm : RMath) (L : ℚ) : ℚ :=
  let RA0 := radToDeg rm (rm.atan (0.91764 * rm.tan (degToRad rm L)))
  let RA1 := if 360 < RA0 then RA0 - 360 else if RA0 < 0 then RA0 + 360 else RA0
  let Lquadrant := (⌊L / 90⌋ : ℚ) * 90
  let RAquadrant := (⌊RA1 / 90⌋ : ℚ) * 90
  (RA1 + (Lquadrant - RAquadrant)) / 15

/-- `sinDec` of line 82. -/
def sunSinDec (rm : RMath) (L : ℚ) : ℚ := 0.39782 * rm.sin (degToRad rm L)

/-- The hour-angle cosine of `SunProvider.calculateTime` (lines 86-87),
zenith 90.833°. -/
def sunCosH (rm : RMath) (N lat lngHour : ℚ) (isSunrise : Bool) : ℚ :=
  let L := sunL rm (sunM (sunT N lngHour isSunrise))
  let sinDec := sunSinDec rm L
  let cosDec := rm.cos (rm.asin sinDec)
  (rm.cos (degToRad rm 90.833) - sinDec * rm.sin (degToRad rm lat)) /
    (cosDec * rm.cos (degToRad rm lat))

/-- `SunProvider.calculateTime` (lines 62-112): `null` on both degenerate
branches, otherwise the local decimal hour in `[0, 24)`. -/
def calculateTime (rm : RMath) (N lat lngHour : ℚ) (isSunrise : Bool)
    (localOffsetHours : ℚ) : Option ℚ :=
  if 1 < sunCosH rm N lat lngHour isSunrise then none
  else if sunCosH rm N lat lngHour isSunrise < -1 then none
  else
    let t := sunT N lngHour isSunrise
    let RA := sunRA rm (sunL rm (sunM t))
    let H0 := if isSunrise then 360 - radToDeg rm (rm.acos (sunCosH rm N lat lngHour isSunrise))
      else radToDeg rm (rm.acos (sunCosH rm N lat lngHour isSunrise))
    let T := H0 / 15 + RA - 0.06571 * t - 6.622
    let UT0 := T - lngHour
    let UT := if 24 < UT0 then UT0 - 24 else if UT0 < 0 then UT0 + 24 else UT0
    let localT0 := UT + localOffsetHours
    let localT1 := if 24 ≤ localT0 then localT0 - 24 else localT0
    some (if localT1 < 0 then localT1 + 24 else localT1)

/-! ## CelestialEventsProvider.getBodyLongitude: the closed body set -/

/-- The body identifiers `getBodyLongitude` actually handles: the node and
sun special cases plus the keys of the `elems` table. -/
def supportedIds : List (List Char) :=
  [("node".toList), ("sun".toList), ("mercury".toList), ("venus".toList),
   ("mars".toList), ("jupiter".toList), ("saturn".toList), ("uranus".toList),
   ("neptune".toList), ("pluto".toList), ("chiron".toList)]

/-! ## MoonProvider.getMoonTimes and SunProvider.getDataForDate -/

/-- The position record of `MoonProvider.getMoonPosition` (lines 100-136);
the observer's latitude/longitude parameters are unused by the source. -/
structure MoonPosM where
  eclipticLongitude : ℚ
  eclipticLatitude : ℚ
  ra : ℚ
  dec : ℚ

/-- `MoonProvider.getMoonPosition` (lines 100-136). -/
def getMoonPosition (rm : RMath) (ms : ℚ) : MoonPosM :=
  let d := ms / 86400000 - 10957.5
  let rad := rm.pi / 180
  let L := (218.316 + 13.176396 * d) * rad
  let M := (134.963 + 13.064993 * d) * rad
  let F := (93.272 + 13.229350 * d) * rad
  let D := (297.850 + 12.190749 * d) * rad
  let Ms := (357.529 + 0.98560028 * d) * rad
  let l := L + 6.289 * rad * rm.sin M + 1.274 * rad * rm.sin (2 * D - M)
    + 0.658 * rad * rm.sin (2 * D) + (-0.185) * rad * rm.sin Ms
    + (-0.114) * rad * rm.sin (2 * F)
  let b := 5.128 * rad * rm.sin F + 0.280 * rad * rm.sin (M + F)
    + 0.278 * rad * rm.sin (M - F) + 0.173 * rad * rm.sin (2 * D - F)
  let obl := 23.439 * rad
  let sinDec := rm.sin b * rm.cos obl + rm.cos b * rm.sin obl * rm.sin l
  let cosDec := rm.sqrt (1 - sinDec * sinDec)
  let sinRA := (rm.cos b * rm.sin l * rm.cos obl - rm.sin b * rm.sin obl) / cosDec
  let cosRA := rm.cos b * rm.cos l / cosDec
  { eclipticLongitude := l * (180 / rm.pi)
    eclipticLatitude := b * (180 / rm.pi)
    ra := rm.atan2 sinRA cosRA
    dec := rm.asin sinDec }

/-- The altitude sample `getAlt` of `getMoonTimes` (lines 213-224),
already minus the refraction threshold `h0 = 0.125°`. -/
def moonAlt (rm : RMath) (lat lng ms : ℚ) : ℚ :=
  let pos := getMoonPosition rm ms
  let d := ms / 86400000 - 10957.5
  let GMSThours := 18.697374558 + 24.06570982441908 * d
  let GMSTrad := jsMod (GMSThours * 15 * (rm.pi / 180)) (2 * rm.pi)
  let LST := GMSTrad + lng * (rm.pi / 180)
  let HA := LST - pos.ra
  let sinAlt := rm.sin (lat * (rm.pi / 180)) * rm.sin pos.dec
    + rm.cos (lat * (rm.pi / 180)) * rm.cos pos.dec * rm.cos HA
  rm.asin sinAlt - 0.125 * rm.pi / 180

/-- `date.setHours(0,0,0,0)` under a fixed local-UTC offset of `tzMin`
minutes. -/
def msLocalMidnight (tzMin : ℤ) (ms : ℚ) : ℚ :=
  86400000 * (⌊(ms + tzMin * 60000) / 86400000⌋ : ℚ) - tzMin * 60000

/-- `MoonProvider.getMoonTimes` (lines 202-242): the `(0,0)` guard, then a
180-step 10-minute scan recording the first upward and first downward
zero crossing. -/
def getMoonTimes (rm : RMath) (use24 : Bool) (tzMin : ℤ) (dateMs lat lng : ℚ) :
    Option (List Char) × Option (List Char) :=
  if lat = 0 ∧ lng = 0 then (none, none)
  else
    let startOfDay := msLocalMidnight tzMin dateMs
    let step : (ℚ × Option (List Char) × Option (List Char)) → ℕ →
        (ℚ × Option (List Char) × Option (List Char)) := fun st i =>
      let time := startOfDay + ((i : ℚ) + 1) * 10 * 60 * 1000
      let alt := moonAlt rm lat lng time
      let rise := if st.1 < 0 ∧ 0 ≤ alt ∧ st.2.1 = none
        then some (formatTimeList use24 tzMin time) else st.2.1
      let set := if 0 < st.1 ∧ alt ≤ 0 ∧ st.2.2 = none
        then some (formatTimeList use24 tzMin time) else st.2.2
      (alt, rise, set)
    let final := (List.range 180).foldl step (moonAlt rm lat lng startOfDay, none, none)
    (final.2.1, final.2.2)

/-- `SunProvider.formatTime` (lines 114-132): `"--:--"` for `null`,
otherwise `H:MM:SS` from the decimal hour. -/
def sunFormatTime (use24 : Bool) : Option ℚ → List Char
  | none => ("--:--".toList)
  | some dt =>
      let hours : ℤ := ⌊dt⌋
      let minutesDecimal := (dt - hours) * 60
      let minutes : ℤ := ⌊minutesDecimal⌋
      let seconds : ℤ := ⌊(minutesDecimal - minutes) * 60⌋
      let mStr := if minutes < 10 then '0' :: natChars minutes.toNat else natChars minutes.toNat
      let sStr := if seconds < 10 then '0' :: natChars seconds.toNat else natChars seconds.toNat
      if use24 then
        (if hours < 10 then '0' :: natChars hours.toNat else natChars hours.toNat)
          ++ ':' :: mStr ++ ':' :: sStr
      else
        natChars (if hours.emod 12 = 0 then (12 : ℤ) else hours.emod 12).toNat
          ++ ':' :: mStr ++ ':' :: sStr ++ ' '
          :: (if 12 ≤ hours then ("PM".toList) else ("AM".toList))

/-- `SunProvider.getSunTimes` (lines 38-60) after the day-of-year and
offset plumbing: `lngHour = lng / 15`, both instants formatted. -/
def getSunTimes (rm : RMath) (use24 : Bool) (N lat lng localOffsetHours : ℚ) :
    List Char × List Char :=
  (sunFormatTime use24 (calculateTime rm N lat (lng / 15) true localOffsetHours),
   sunFormatTime use24 (calculateTime rm N lat (lng / 15) false localOffsetHours))

/-- `SunProvider.getDataForDate` (lines 15-35): the `enableSun` gate, the
`(0,0)` settings prompt, then the two rendered lines.  The resolved
location and the computed day-of-year/offset arrive as parameters. -/
def sunGetDataForDate (rm : RMath) (enableSun use24 : Bool) (lat lng N localOffsetHours : ℚ) :
    List (List Char) :=
  if enableSun = false then []
  else if lat = 0 ∧ lng = 0 then
    [("_Sun Times: Please set Latitude/Longitude in DaySpark settings._".toList)]
  else
    [("🌅 **Sunrise:** ".toList) ++ (getSunTimes rm use24 N lat lng localOffsetHours).1,
     ("🌇 **Sunset:** ".toList) ++ (getSunTimes rm use24 N lat lng localOffsetHours).2]

/-- Claim C1 (amended): an out-of-range hour-angle cosine is a defined
outcome, never an exception — `calcRiseSet` returns the all-absent record
and `calculateTime` returns `null` — but the two degenerate cases are NOT
represented distinctly: both take the very same branch value. -/
theorem degenerate_riseSet (rm : RMath) (use24 : Bool) (tzMin : ℤ)
    (dateMs lat lng ra dec N slat lngHour off : ℚ) (isRise : Bool)
    (hp : 1 < planetCosH rm lat dec ∨ planetCosH rm lat dec < -1)
    (hs : 1 < sunCosH rm N slat lngHour isRise ∨ sunCosH rm N slat lngHour isRise < -1) :
    calcRiseSet rm use24 tzMin dateMs lat lng ra dec = ⟨none, none, none, none⟩ ∧
    calculateTime rm N slat lngHour isRise off = none := by
  constructor
  · unfold calcRiseSet
    rw [if_pos hp]
  · unfold calculateTime
    rcases hs with hs | hs
    · rw [if_pos hs]
    · rw [if_neg (by linarith), if_pos hs]

theorem degenerate_riseSet_witness :
    (1 < planetCosH demoRM (-90) 3 ∨ planetCosH demoRM (-90) 3 < -1) ∧
    (1 < sunCosH demoRM 0 90 0 true ∨ sunCosH demoRM 0 90 0 true < -1) ∧
    (calcRiseSet demoRM true 0 0 (-90) 0 0 3 = ⟨none, none, none, none⟩ ∧
     calculateTime demoRM 0 90 0 true 0 = none) :=
  ⟨Or.inl (by norm_num [planetCosH, demoRM, clampQ, max_def, min_def]),
   Or.inl (by norm_num [sunCosH, sunSinDec, sunL, sunM, sunT, degToRad, demoRM,
     clampQ, max_def, min_def]),
   degenerate_riseSet demoRM true 0 0 (-90) 0 0 3 0 90 0 0 true
     (Or.inl (by norm_num [planetCosH, demoRM, clampQ, max_def, min_def]))
     (Or.inl (by norm_num [sunCosH, sunSinDec, sunL, sunM, sunT, degToRad, demoRM,
       clampQ, max_def, min_def]))⟩

/-- Claim C1, refuting the claimed distinction: a "never rises" input
(`cosH > 1`) and a "never sets" input (`cosH < -1`) produce *identical*
outputs from `calcRiseSet` and from `calculateTime` — callers cannot
render different messages for the two cases. -/
theorem degenerate_cases_indistinct :
    1 < planetCosH demoRM (-90) 3 ∧ planetCosH demoRM 90 3 < -1 ∧
    calcRiseSet demoRM true 0 0 (-90) 0 0 3 = calcRiseSet demoRM true 0 0 90 0 0 3 ∧
    1 < sunCosH demoRM 0 90 0 true ∧ sunCosH demoRM 0 60 0 true < -1 ∧
    calculateTime demoRM 0 90 0 true 0 = calculateTime demoRM 0 60 0 true 0 := by
  have hp1 : 1 < planetCosH demoRM (-90) 3 := by
    norm_num [planetCosH, demoRM, clampQ, max_def, min_def]
  have hp2 : planetCosH demoRM 90 3 < -1 := by
    norm_num [planetCosH, demoRM, clampQ, max_def, min_def]
  have hs1 : 1 < sunCosH demoRM 0 90 0 true := by
    norm_num [sunCosH, sunSinDec, sunL, sunM, sunT, degToRad, demoRM, clampQ,
      max_def, min_def]
  have hs2 : sunCosH demoRM 0 60 0 true < -1 := by
    norm_num [sunCosH, sunSinDec, sunL, sunM, sunT, degToRad, demoRM, clampQ,
      max_def, min_def]
  refine ⟨hp1, hp2, ?_, hs1, hs2, ?_⟩
  · unfold calcRiseSet
    rw [if_pos (Or.inl hp1), if_pos (Or.inr hp2)]
  · unfold calculateTime
    rw [if_pos hs1, if_neg (by linarith), if_pos hs2]

theorem getBodyLongitude_fallback (rm : RMath) (dateMs : ℚ) (bodyId : List Char)
    (h : bodyId ∉ supportedIds) : getBodyLongitude rm dateMs bodyId = 0 := by
  simp only [supportedIds, List.mem_cons, List.not_mem_nil, or_false, not_or] at h
  obtain ⟨h1, h2, h3, h4, h5, h6, h7, h8, h9, h10, h11⟩ := h
  simp only [getBodyLongitude, if_neg h1, if_neg h2, elemsFor, if_neg h3, if_neg h4,
    if_neg h5, if_neg h6, if_neg h7, if_neg h8, if_neg h9, if_neg h10, if_neg h11]

/-- Claim C3 (amended): a body identifier outside the supported set is NOT
a fail-fast error — `getBodyLongitude` falls through its table lookup and
silently returns the fallback longitude `0`. -/
theorem getBodyLongitude_unknown (rm : RMath) (dateMs : ℚ) (bodyId : List Char)
    (h : bodyId ∉ supportedIds) : getBodyLongitude rm dateMs bodyId = 0 :=
  getBodyLongitude_fallback rm dateMs bodyId h

theorem getBodyLongitude_unknown_witness :
    ("moon".toList) ∉ supportedIds ∧ getBodyLongitude demoRM 0 ("moon".toList) = 0 :=
  ⟨by decide, getBodyLongitude_unknown demoRM 0 ("moon".toList) (by decide)⟩

/-- Claim C3, refuting fail-fast: the unknown identifier `"vulcan"` is
treated as a recoverable condition at runtime — the call simply yields the
silent fallback value `0`, indistinguishable from a genuine longitude. -/
theorem getBodyLongitude_silent_fallback :
    getBodyLongitude demoRM 86400000 ("vulcan".toList) = 0 :=
  getBodyLongitude_fallback demoRM 86400000 ("vulcan".toList) (by decide)

/-- Claim C10: latitude 0, longitude 0 acts as the "unset location"
sentinel — `getMoonTimes` reports both instants absent, and the sun
provider answers with the settings prompt line instead of times. -/
theorem unset_location_sentinel (rm : RMath) (use24 : Bool) (tzMin : ℤ)
    (dateMs N off : ℚ) (enableSun : Bool) (h : enableSun = true) :
    getMoonTimes rm use24 tzMin dateMs 0 0 = (none, none) ∧
    sunGetDataForDate rm enableSun use24 0 0 N off =
      [("_Sun Times: Please set Latitude/Longitude in DaySpark settings._".toList)] := by
  constructor
  · unfold getMoonTimes
    rw [if_pos ⟨rfl, rfl⟩]
  · unfold sunGetDataForDate
    rw [h]
    rw [if_neg (by simp), if_pos ⟨rfl, rfl⟩]

theorem unset_location_sentinel_witness :
    (true = true) ∧
    (getMoonTimes demoRM true 0 0 0 0 = (none, none) ∧
     sunGetDataForDate demoRM true true 0 0 0 0 =
       [("_Sun Times: Please set Latitude/Longitude in DaySpark settings._".toList)]) :=
  ⟨rfl, unset_location_sentinel demoRM true 0 0 0 0 true rfl⟩

end DaySpark
